import Mathlib

/-!
# Prosense serial frame decoder (`components/prosense`)

A shallow embedding of `prosense.h` / `prosense.cpp`: the frame accumulator
(`ProsenseComponent::loop`), the byte validator (`check_byte_`), the frame
decoder (`parse_data_`, `get_16_bit_uint_`) and the additive checksum
(`calculate_checksum_`).

Conventions of the embedding.
* `uint8_t`, `uint16_t` and `uint32_t` values are natural numbers; every place
  where the C++ arithmetic can wrap carries an explicit `% 2^w`.
* `uint8_t data_[64]` is a `List Nat`; a well-formed component has a buffer of
  length `64` whose entries are below `256`.
* `optional<bool>` is `Option Bool`: `some true` is "next byte" (Continue),
  `some false` is "wrong data" (Reject) and `none` is "finished"
  (FrameComplete).
* `float` values handed to `publish_state` are exact rationals: rounding is
  left out, overflow of `powf` to `+inf` is kept.
* The UART receive queue is the list of bytes available when `loop` is
  entered; `read_byte` / `read` take its head.
* Log statements (`ESP_LOGW`, `ESP_LOGD`) have no effect on the state and are
  left out.
-/

namespace esphome
namespace prosense

/-! ## Constants of `prosense.h` -/

def CO100_START_BYTE : Nat := 0xFF
def CO100_GAS_CO : Nat := 0x19
def CO100_UNIT_PPM : Nat := 0x02
def CO100_PACKET_LENGTH : Nat := 8

def DSRF_START_BYTE : Nat := 0xFF
def DSRF_RESERVED_BYTE : Nat := 0x05
def DSRF_TEMP_POSITIVE : Nat := 0x00
def DSRF_PACKET_LENGTH : Nat := 14

/-- Enumerator `PROSENSE_TYPE_DSRF = 0` of `enum ProsenseType`. -/
def PROSENSE_TYPE_DSRF : Nat := 0
/-- Enumerator `PROSENSE_TYPE_CO100` (value 1) of `enum ProsenseType`. -/
def PROSENSE_TYPE_CO100 : Nat := 1

/-- Capacity of the receive buffer, `sizeof(this->data_)`. -/
def DATA_SIZE : Nat := 64

/-! ## Data model -/

/-- The five optional output sensors of the component. -/
inductive Sink where
  | co
  | temperature
  | humidity
  | tvoc
  | formaldehyde
  deriving DecidableEq, Repr

/-- The fields of `class ProsenseComponent` that the decoder reads or writes.
A sensor pointer is represented by whether it is non-null; `status_warning`
is the warning bit of the `Component` base class that
`status_clear_warning()` clears. -/
structure ProsenseComponent where
  data_ : List Nat
  data_index_ : Nat
  last_transmission_ : Nat
  type_ : Nat
  co_sensor_ : Bool
  temperature_sensor_ : Bool
  humidity_sensor_ : Bool
  tvoc_sensor_ : Bool
  formaldehyde_sensor_ : Bool
  status_warning : Bool
  deriving DecidableEq, Repr

/-- Read of `data[i]`. -/
def byteAt (data : List Nat) (i : Nat) : Nat := data.getD i 0

/-! ## `calculate_checksum_` -/

/-- The `for` loop of `calculate_checksum_`: `sum += data[i]` on a `uint8_t`
accumulator, for `i = 0 .. length - 1`. -/
def checksum_sum (data : List Nat) (length : Nat) : Nat :=
  (List.range length).foldl (fun sum i => (sum + byteAt data i) % 256) 0

/-- `ProsenseComponent::calculate_checksum_`: `(~sum) + 1` truncated to
`uint8_t`. On eight bits `~sum` is `255 - sum`. -/
def calculate_checksum_ (data : List Nat) (length : Nat) : Nat :=
  ((255 - checksum_sum data length) + 1) % 256

/-! ## `get_16_bit_uint_` -/

/-- `ProsenseComponent::get_16_bit_uint_`:
`(uint16_t(data_[i]) << 8) | uint16_t(data_[i + 1])`, truncated to 16 bits. -/
def get_16_bit_uint_ (s : ProsenseComponent) (start_index : Nat) : Nat :=
  (((byteAt s.data_ start_index) <<< 8) ||| byteAt s.data_ (start_index + 1)) % 65536

/-! ## `check_byte_` -/

/-- `ProsenseComponent::check_byte_`, branch for branch. -/
def check_byte_ (s : ProsenseComponent) : Option Bool :=
  let index := s.data_index_ % 256
  let byte := byteAt s.data_ index
  if s.type_ = PROSENSE_TYPE_CO100 then
    if index = 0 then some (decide (byte = CO100_START_BYTE))
    else if index = 1 then some (decide (byte = CO100_GAS_CO))
    else if index = 2 then some (decide (byte = CO100_UNIT_PPM))
    else if index < CO100_PACKET_LENGTH - 1 then some true
    else if index = CO100_PACKET_LENGTH - 2 then
      let checksum := byteAt s.data_ index
      let calculated_checksum := calculate_checksum_ s.data_ index
      if checksum ≠ calculated_checksum then some false else some true
    else if index = CO100_PACKET_LENGTH - 1 then none
    else some true
  else if s.type_ = PROSENSE_TYPE_DSRF then
    if index = 0 then some (decide (byte = DSRF_START_BYTE))
    else if index = 1 then some (decide (byte = DSRF_RESERVED_BYTE))
    else if index < DSRF_PACKET_LENGTH - 1 then some true
    else if index = DSRF_PACKET_LENGTH - 2 then
      let checksum := byteAt s.data_ index
      let calculated_checksum := calculate_checksum_ s.data_ index
      if checksum ≠ calculated_checksum then some false else some true
    else if index = DSRF_PACKET_LENGTH - 1 then none
    else some true
  else some true

/-- Outcome "next byte" of `check_byte_`. -/
abbrev Continue : Option Bool := some true
/-- Outcome "wrong data" of `check_byte_`. -/
abbrev Reject : Option Bool := some false
/-- Outcome "finished" of `check_byte_` (the empty optional). -/
abbrev FrameComplete : Option Bool := none

/-! ## `parse_data_` -/

/-- A call `sensor->publish_state(value)`. -/
structure Publish where
  sink : Sink
  value : ℚ
  deriving DecidableEq, Repr

/-- The guarded call `if (sensor != nullptr) sensor->publish_state(value)`. -/
def publish_if (configured : Bool) (sink : Sink) (value : ℚ) : List Publish :=
  if configured then [⟨sink, value⟩] else []

/-- Largest finite `float`: `FLT_MAX = (2 - 2^-23) * 2^127`. -/
def FLT_MAX : ℚ := 340282346638528859811704183484516925440

/-- `powf(10.0f, d)` for an unsigned byte `d`. `none` stands for `+inf`, which
`powf` returns once `10^d` is beyond `FLT_MAX`, that is from `d = 39` on;
below that the power is taken exactly (rounding to `float` is left out). -/
def powf10 (d : Nat) : Option ℚ :=
  if (10 : ℚ) ^ d > FLT_MAX then none else some ((10 : ℚ) ^ d)

/-- Float division `x / y` of a finite `x` by a positive `y` that may be
`+inf`: a finite value divided by `+inf` is `0.0`. -/
def divf (x : ℚ) : Option ℚ → ℚ
  | none => 0
  | some y => x / y

/-- The value `co_value` computed by the CO100 case of `parse_data_`:
`raw_value`, divided by `powf(10.0f, digits_after_decimal)` when
`digits_after_decimal > 0`. -/
def co_value (s : ProsenseComponent) : ℚ :=
  let digits_after_decimal := byteAt s.data_ 3
  let raw_value := get_16_bit_uint_ s 4
  let co_value : ℚ := (raw_value : ℚ)
  if digits_after_decimal > 0 then divf co_value (powf10 digits_after_decimal) else co_value

/-- The value `temperature` computed by the DSRF case of `parse_data_`:
`temp_sign * (data_[9] + (data_[10] / 100.0f))`. -/
def temperature (s : ProsenseComponent) : ℚ :=
  let temp_sign : ℚ := if byteAt s.data_ 8 = DSRF_TEMP_POSITIVE then 1 else -1
  temp_sign * ((byteAt s.data_ 9 : ℚ) + (byteAt s.data_ 10 : ℚ) / 100)

/-- The value `humidity` computed by the DSRF case of `parse_data_`:
`data_[11] + (data_[12] / 100.0f)`. -/
def humidity (s : ProsenseComponent) : ℚ :=
  (byteAt s.data_ 11 : ℚ) + (byteAt s.data_ 12 : ℚ) / 100

/-- `ProsenseComponent::parse_data_`: the component after the call and the
`publish_state` calls it made, in order. The early `return` of a length guard
skips `status_clear_warning()`; a `type_` matching no `case` label falls
through the `switch` to `status_clear_warning()`. -/
def parse_data_ (s : ProsenseComponent) : ProsenseComponent × List Publish :=
  if s.type_ = PROSENSE_TYPE_DSRF then
    if s.data_index_ ≠ DSRF_PACKET_LENGTH - 1 then (s, [])
    else
      let hcho := get_16_bit_uint_ s 2
      let tvoc := get_16_bit_uint_ s 6
      ({ s with status_warning := false },
        publish_if s.formaldehyde_sensor_ Sink.formaldehyde (hcho : ℚ)
          ++ publish_if s.tvoc_sensor_ Sink.tvoc (tvoc : ℚ)
          ++ publish_if s.temperature_sensor_ Sink.temperature (temperature s)
          ++ publish_if s.humidity_sensor_ Sink.humidity (humidity s))
  else if s.type_ = PROSENSE_TYPE_CO100 then
    if s.data_index_ ≠ CO100_PACKET_LENGTH - 1 then (s, [])
    else
      ({ s with status_warning := false },
        publish_if s.co_sensor_ Sink.co (co_value s))
  else ({ s with status_warning := false }, [])

/-! ## `loop` -/

/-- What one call of `loop` did: the component afterwards, the bytes still
waiting in the UART queue, the `publish_state` calls, the buffer and index of
every `parse_data_` invocation, the `(index, byte)` of every store into
`data_`, and the bytes discarded by the queue-clearing `read()` loop. -/
structure LoopResult where
  comp : ProsenseComponent
  rx : List Nat
  published : List Publish
  parsed : List (List Nat × Nat)
  stored : List (Nat × Nat)
  dropped : List Nat
  deriving DecidableEq, Repr

/-- Records a store into `data_` in front of the rest of a result. -/
def LoopResult.withStore (r : LoopResult) (index byte : Nat) : LoopResult :=
  { r with stored := (index, byte) :: r.stored }

/-- The `while (this->available() != 0)` loop of `loop`, by recursion on the
bytes available. -/
def loopWhile (s : ProsenseComponent) : List Nat → LoopResult
  | [] => ⟨s, [], [], [], [], []⟩
  | b :: rest =>
    if s.data_index_ ≥ DATA_SIZE then
      ⟨{ s with data_index_ := 0 }, b :: rest, [], [], [], []⟩
    else
      let s1 := { s with data_ := s.data_.set s.data_index_ b }
      match check_byte_ s1 with
      | none =>
        let r := parse_data_ s1
        ⟨{ r.1 with data_index_ := 0 }, [], r.2, [(s1.data_, s1.data_index_)],
          [(s.data_index_, b)], rest⟩
      | some false =>
        (loopWhile { s1 with data_index_ := 0 } rest).withStore s.data_index_ b
      | some true =>
        (loopWhile { s1 with data_index_ := (s1.data_index_ + 1) % 256 } rest).withStore
          s.data_index_ b

/-- Subtraction `a - b` on `uint32_t`. -/
def sub32 (a b : Nat) : Nat := (a + 2 ^ 32 - b % 2 ^ 32) % 2 ^ 32

/-- `ProsenseComponent::loop`, with `now = millis()` and `rx` the bytes
available in the UART queue. -/
def loop (now : Nat) (s : ProsenseComponent) (rx : List Nat) : LoopResult :=
  let s1 := if sub32 now s.last_transmission_ ≥ 500 then { s with data_index_ := 0 } else s
  match rx with
  | [] => ⟨s1, [], [], [], [], []⟩
  | b :: rest => loopWhile { s1 with last_transmission_ := now } (b :: rest)

/-! ## Successive calls of `loop` -/

/-- One scheduled call of `loop`: the clock reading and the bytes that arrived
on the UART since the previous call. -/
abbrev Poll := Nat × List Nat

/-- State between calls of `loop`: the component, the bytes left in the UART
queue, and everything published and parsed so far. -/
structure Trace where
  comp : ProsenseComponent
  rx : List Nat
  published : List Publish
  parsed : List (List Nat × Nat)
  deriving DecidableEq, Repr

/-- Runs `loop` once per poll, in order; the bytes of a poll are appended to
whatever the previous call left in the queue. -/
def runPolls (t : Trace) : List Poll → Trace
  | [] => t
  | (now, bytes) :: rest =>
    let r := loop now t.comp (t.rx ++ bytes)
    runPolls ⟨r.comp, r.rx, t.published ++ r.published, t.parsed ++ r.parsed⟩ rest

/-! ## Frames -/

/-- Packet length of a recognised variant. -/
def packetLength (type : Nat) : Nat :=
  if type = PROSENSE_TYPE_CO100 then CO100_PACKET_LENGTH else DSRF_PACKET_LENGTH

/-- The fixed header bytes of a frame match those `check_byte_` demands. -/
def headerValid (type : Nat) (frame : List Nat) : Prop :=
  if type = PROSENSE_TYPE_CO100 then
    byteAt frame 0 = CO100_START_BYTE ∧ byteAt frame 1 = CO100_GAS_CO
      ∧ byteAt frame 2 = CO100_UNIT_PPM
  else byteAt frame 0 = DSRF_START_BYTE ∧ byteAt frame 1 = DSRF_RESERVED_BYTE

instance (type : Nat) (frame : List Nat) : Decidable (headerValid type frame) := by
  unfold headerValid; infer_instance

/-- The byte at position `length - 2` equals the checksum of the bytes before
it. -/
def checksumValid (type : Nat) (frame : List Nat) : Prop :=
  byteAt frame (packetLength type - 2) = calculate_checksum_ frame (packetLength type - 2)

instance (type : Nat) (frame : List Nat) : Decidable (checksumValid type frame) := by
  unfold checksumValid; infer_instance

/-- A well-formed component: a 64-byte buffer of bytes, an 8-bit index and a
32-bit timestamp. -/
def WellFormed (s : ProsenseComponent) : Prop :=
  s.data_.length = DATA_SIZE ∧ (∀ b ∈ s.data_, b < 256) ∧ s.data_index_ < 256
    ∧ s.last_transmission_ < 2 ^ 32

instance (s : ProsenseComponent) : Decidable (WellFormed s) := by
  unfold WellFormed; infer_instance

/-- A component with an all-zero buffer, index 0, timestamp 0, no warning and
every sensor configured. -/
def initial (type : Nat) : ProsenseComponent :=
  ⟨List.replicate 64 0, 0, 0, type, true, true, true, true, true, false⟩

/-- The component `initial type` at the moment `check_byte_` reports
"finished" on `frame`: the frame sits at the start of the buffer and the index
is that of its last byte. -/
def withFrame (type : Nat) (frame : List Nat) : ProsenseComponent :=
  { initial type with
    data_ := frame ++ List.replicate (DATA_SIZE - frame.length) 0
    data_index_ := frame.length - 1 }

/-- The component `withFrame type frame` with the warning bit latched and the
index moved to `index`. -/
def warned (type : Nat) (frame : List Nat) (index : Nat) : ProsenseComponent :=
  { withFrame type frame with data_index_ := index, status_warning := true }

/-- A CO100 frame with valid header and checksum: two decimal places, raw
value 1234. -/
def co100_valid : List Nat := [0xFF, 0x19, 0x02, 0x02, 0x04, 0xD2, 0x0E, 0x00]

/-- A CO100 frame with valid header and checksum whose decimal-places byte is
39 (`0x27`); the raw value is 1234. -/
def co100_overflow : List Nat := [0xFF, 0x19, 0x02, 0x27, 0x04, 0xD2, 0xE9, 0x00]

/-- A DSRF frame with valid header and checksum. -/
def dsrf_valid : List Nat :=
  [0xFF, 0x05, 0x00, 0x01, 0x00, 0x02, 0x00, 0x03, 0x00, 0x19, 0x32, 0x28, 0x83, 0x00]

/-- A CO100 frame with valid header bytes whose byte 6 (`0x00`) is not the
checksum `0x0E` of the six bytes before it. -/
def co100_corrupted : List Nat := [0xFF, 0x19, 0x02, 0x02, 0x04, 0xD2, 0x00, 0x00]

/-- A DSRF frame with valid header bytes whose byte 12 (`0x07`) is not the
checksum `0x83` of the twelve bytes before it. -/
def dsrf_corrupted : List Nat :=
  [0xFF, 0x05, 0x00, 0x01, 0x00, 0x02, 0x00, 0x03, 0x00, 0x19, 0x32, 0x28, 0x07, 0x00]

/-- The `publish_state` calls of a list that went to one sink. -/
def publishedTo (sink : Sink) (l : List Publish) : List Publish :=
  l.filter (fun p => decide (p.sink = sink))

/-! ## Delivery of a frame over several polls -/

/-- The bytes handed over by a list of polls, in order. -/
def delivered : List Poll → List Nat
  | [] => []
  | (_, bytes) :: rest => bytes ++ delivered rest

/-- Every poll comes less than 500 time units (in `uint32_t` arithmetic) after
the previous poll that received bytes; `last` is the clock reading of that
previous poll, or `none` when no poll has received bytes yet. -/
def timely (last : Option Nat) : List Poll → Bool
  | [] => true
  | (now, bytes) :: rest =>
    (match last with
      | none => true
      | some t => decide (sub32 now t < 500))
    && timely (if bytes = [] then last else some now) rest

/-- The component holds the first `k` bytes of `frame` and waits for byte
`k`. -/
def Holds (type : Nat) (frame : List Nat) (k : Nat) (s : ProsenseComponent) : Prop :=
  s.type_ = type ∧ s.data_.length = DATA_SIZE ∧ s.data_index_ = k
    ∧ ∀ i, i < k → byteAt s.data_ i = byteAt frame i

/-- The clock bookkeeping behind `timely`: before any byte has arrived the
index is 0, afterwards `last_transmission_` is the reading of the last poll
that received bytes. -/
def Synced (last : Option Nat) (s : ProsenseComponent) : Prop :=
  match last with
  | none => s.data_index_ = 0
  | some t => s.last_transmission_ = t

/-- The trace before the first call of `loop`: nothing queued, published or
parsed. -/
def Trace.start (s : ProsenseComponent) : Trace := ⟨s, [], [], []⟩

/-! ## Sinks and sample components -/

/-- Two valid CO100 frames back to back. -/
def co100_twice : List Nat := co100_valid ++ co100_valid

/-- Whether the sensor pointer behind a sink is non-null. -/
def configured (s : ProsenseComponent) : Sink → Bool
  | Sink.co => s.co_sensor_
  | Sink.temperature => s.temperature_sensor_
  | Sink.humidity => s.humidity_sensor_
  | Sink.tvoc => s.tvoc_sensor_
  | Sink.formaldehyde => s.formaldehyde_sensor_

/-- Whether `parse_data_` publishes to a sink in the `case` of a variant: the
CO sensor in the CO100 case, the other four in the DSRF case. -/
def belongs (type : Nat) : Sink → Bool
  | Sink.co => decide (type = PROSENSE_TYPE_CO100)
  | _ => decide (type = PROSENSE_TYPE_DSRF)

/-- The value `parse_data_` passes to `publish_state` of a sink. -/
def measurement (s : ProsenseComponent) : Sink → ℚ
  | Sink.co => co_value s
  | Sink.temperature => temperature s
  | Sink.humidity => humidity s
  | Sink.tvoc => ((get_16_bit_uint_ s 6 : ℕ) : ℚ)
  | Sink.formaldehyde => ((get_16_bit_uint_ s 2 : ℕ) : ℚ)

/-- The local `voc` of the DSRF case of `parse_data_`, `get_16_bit_uint_(4)`;
it is passed to `ESP_LOGD` only. -/
def voc (s : ProsenseComponent) : Nat := get_16_bit_uint_ s 4

/-- The local `full_scale` of the CO100 case of `parse_data_`,
`get_16_bit_uint_(6)`; it is passed to `ESP_LOGD` only. -/
def full_scale (s : ProsenseComponent) : Nat := get_16_bit_uint_ s 6

/-- A component in the middle of a CO100 frame: index 3, last byte received at
time 1000. -/
def midFrame : ProsenseComponent :=
  { withFrame PROSENSE_TYPE_CO100 co100_valid with data_index_ := 3, last_transmission_ := 1000 }

/-- A component whose index has reached the buffer capacity, last byte
received at time 1000. -/
def fullBuffer : ProsenseComponent :=
  { initial 7 with data_index_ := 64, last_transmission_ := 1000 }

/-- The DSRF sample frame decoded with only the temperature and TVOC sensors
set. -/
def twoSensors : ProsenseComponent :=
  { withFrame PROSENSE_TYPE_DSRF dsrf_valid with
    humidity_sensor_ := false, formaldehyde_sensor_ := false, co_sensor_ := false }

/-! ## Checksum -/

theorem checksum_sum_succ (data : List Nat) (n : Nat) :
    checksum_sum data (n + 1) = (checksum_sum data n + byteAt data n) % 256 := by
  simp [checksum_sum, List.range_succ, List.foldl_append]

theorem sum_take_succ (data : List Nat) (n : Nat) (h : n < data.length) :
    (data.take (n + 1)).sum = (data.take n).sum + byteAt data n := by
  induction data generalizing n with
  | nil => simp at h
  | cons a t ih =>
    cases n with
    | zero => simp [byteAt]
    | succ k =>
      have hk : k < t.length := by simpa using h
      have := ih k hk
      simp only [byteAt, List.getD_cons_succ, List.take_succ_cons, List.sum_cons] at this ⊢
      omega

theorem checksum_sum_eq (data : List Nat) (n : Nat) (h : n ≤ data.length) :
    checksum_sum data n = (data.take n).sum % 256 := by
  induction n with
  | zero => simp [checksum_sum]
  | succ k ih =>
    rw [checksum_sum_succ, sum_take_succ data k (by omega), ih (by omega)]
    omega

/-- C1. Checksum round trip: for a byte array `B` and a length `L` within it
(`L ≤ 255`), the 8-bit sum of `B[0..L)` plus `calculate_checksum_(B, L)` is
`0` modulo 256. -/
theorem checksum_round_trip (B : List Nat) (L : Nat) (hL : L ≤ B.length) (h255 : L ≤ 255) :
    ((B.take L).sum % 256 + calculate_checksum_ B L) % 256 = 0 := by
  have _ := h255
  unfold calculate_checksum_
  rw [checksum_sum_eq B L hL]
  omega

theorem checksum_round_trip_witness :
    6 ≤ [0xFF, 0x19, 0x02, 0x02, 0x04, 0xD2, 0x0E, 0x00].length ∧ 6 ≤ 255 ∧
      (([0xFF, 0x19, 0x02, 0x02, 0x04, 0xD2, 0x0E, 0x00].take 6).sum % 256
        + calculate_checksum_ [0xFF, 0x19, 0x02, 0x02, 0x04, 0xD2, 0x0E, 0x00] 6) % 256 = 0 :=
  ⟨by decide, by decide,
    checksum_round_trip [0xFF, 0x19, 0x02, 0x02, 0x04, 0xD2, 0x0E, 0x00] 6 (by decide) (by decide)⟩

/-! ## Byte validator -/

/-- C2. Evaluation of `loop` on frames with a corrupted checksum byte: for
both variants the header is valid and the checksum byte is wrong, and yet
`loop`, started at index 0, invokes `parse_data_` once (at index 7, resp. 13,
on a buffer holding the corrupted frame) and publishes values. -/
theorem loop_decodes_corrupted_checksum :
    (headerValid PROSENSE_TYPE_CO100 co100_corrupted
      ∧ ¬ checksumValid PROSENSE_TYPE_CO100 co100_corrupted
      ∧ (loop 1 (initial PROSENSE_TYPE_CO100) co100_corrupted).parsed
          = [(co100_corrupted ++ List.replicate 56 0, 7)]
      ∧ (loop 1 (initial PROSENSE_TYPE_CO100) co100_corrupted).published.map Publish.sink
          = [Sink.co])
    ∧ (headerValid PROSENSE_TYPE_DSRF dsrf_corrupted
      ∧ ¬ checksumValid PROSENSE_TYPE_DSRF dsrf_corrupted
      ∧ (loop 1 (initial PROSENSE_TYPE_DSRF) dsrf_corrupted).parsed
          = [(dsrf_corrupted ++ List.replicate 50 0, 13)]
      ∧ (loop 1 (initial PROSENSE_TYPE_DSRF) dsrf_corrupted).published.map Publish.sink
          = [Sink.formaldehyde, Sink.tvoc, Sink.temperature, Sink.humidity]) := by
  refine ⟨⟨by decide, by decide, by decide, by decide⟩, ⟨by decide, by decide, by decide, by decide⟩⟩

/-- C3. Evaluation of `check_byte_` at the checksum position: for every
component, at index 6 of a CO100 frame and at index 12 of a DSRF frame the
answer is "next byte" whatever the buffer holds; in particular on the
corrupted frames, whose byte at that index differs from the computed
checksum, the answer is not "wrong data". -/
theorem check_byte_checksum_position_continues :
    (∀ s : ProsenseComponent,
        check_byte_ { s with type_ := PROSENSE_TYPE_CO100, data_index_ := 6 } = Continue)
    ∧ (∀ s : ProsenseComponent,
        check_byte_ { s with type_ := PROSENSE_TYPE_DSRF, data_index_ := 12 } = Continue)
    ∧ byteAt (withFrame PROSENSE_TYPE_CO100 co100_corrupted).data_ 6
        ≠ calculate_checksum_ (withFrame PROSENSE_TYPE_CO100 co100_corrupted).data_ 6
    ∧ check_byte_ { withFrame PROSENSE_TYPE_CO100 co100_corrupted with data_index_ := 6 }
        ≠ Reject
    ∧ byteAt (withFrame PROSENSE_TYPE_DSRF dsrf_corrupted).data_ 12
        ≠ calculate_checksum_ (withFrame PROSENSE_TYPE_DSRF dsrf_corrupted).data_ 12
    ∧ check_byte_ { withFrame PROSENSE_TYPE_DSRF dsrf_corrupted with data_index_ := 12 }
        ≠ Reject := by
  refine ⟨fun s => ?_, fun s => ?_, by decide, by decide, by decide, by decide⟩
  · simp [check_byte_, PROSENSE_TYPE_CO100, CO100_PACKET_LENGTH]
  · simp [check_byte_, PROSENSE_TYPE_CO100, PROSENSE_TYPE_DSRF, DSRF_PACKET_LENGTH]

/-- Closed form of `check_byte_` for the CO100 variant. -/
theorem check_byte_co100 (s : ProsenseComponent) (hty : s.type_ = PROSENSE_TYPE_CO100)
    (hidx : s.data_index_ < 256) :
    check_byte_ s =
      if s.data_index_ = 0 then some (decide (byteAt s.data_ 0 = 0xFF))
      else if s.data_index_ = 1 then some (decide (byteAt s.data_ 1 = 0x19))
      else if s.data_index_ = 2 then some (decide (byteAt s.data_ 2 = 0x02))
      else if s.data_index_ = 7 then none
      else some true := by
  have hmod : s.data_index_ % 256 = s.data_index_ := Nat.mod_eq_of_lt hidx
  simp only [check_byte_, hty, hmod, if_true, CO100_START_BYTE, CO100_GAS_CO, CO100_UNIT_PPM,
    CO100_PACKET_LENGTH]
  by_cases h0 : s.data_index_ = 0
  · simp [h0]
  by_cases h1 : s.data_index_ = 1
  · simp [h1]
  by_cases h2 : s.data_index_ = 2
  · simp [h2]
  by_cases h7 : s.data_index_ = 7
  · simp [h7]
  by_cases hlt : s.data_index_ < 7
  · simp [h0, h1, h2, h7, hlt]
  · have h6 : s.data_index_ ≠ 6 := by omega
    simp [h0, h1, h2, h7, hlt, h6]

/-- Closed form of `check_byte_` for the DSRF variant. -/
theorem check_byte_dsrf (s : ProsenseComponent) (hty : s.type_ = PROSENSE_TYPE_DSRF)
    (hidx : s.data_index_ < 256) :
    check_byte_ s =
      if s.data_index_ = 0 then some (decide (byteAt s.data_ 0 = 0xFF))
      else if s.data_index_ = 1 then some (decide (byteAt s.data_ 1 = 0x05))
      else if s.data_index_ = 13 then none
      else some true := by
  have hmod : s.data_index_ % 256 = s.data_index_ := Nat.mod_eq_of_lt hidx
  have hne : ¬ (PROSENSE_TYPE_DSRF = PROSENSE_TYPE_CO100) := by decide
  simp only [check_byte_, hty, hne, hmod, if_true, if_false, DSRF_START_BYTE,
    DSRF_RESERVED_BYTE, DSRF_PACKET_LENGTH]
  by_cases h0 : s.data_index_ = 0
  · simp [h0]
  by_cases h1 : s.data_index_ = 1
  · simp [h1]
  by_cases h13 : s.data_index_ = 13
  · simp [h13]
  by_cases hlt : s.data_index_ < 13
  · simp [h0, h1, h13, hlt]
  · have h12 : s.data_index_ ≠ 12 := by omega
    simp [h0, h1, h13, hlt, h12]

/-- C4. CO100 positional rules away from the checksum position: "next byte"
at index 0 iff the byte is `0xFF`, at index 1 iff it is `0x19`, at index 2 iff
it is `0x02`, and "wrong data" otherwise there; "next byte" at indices 3, 4, 5
for every byte; "finished" at index 7 for every byte, and at no other index. -/
theorem check_byte_co100_rules (s : ProsenseComponent)
    (hty : s.type_ = PROSENSE_TYPE_CO100) (hidx : s.data_index_ < 256) :
    (s.data_index_ = 0 →
        (check_byte_ s = Continue ↔ byteAt s.data_ 0 = 0xFF)
        ∧ (check_byte_ s = Reject ↔ byteAt s.data_ 0 ≠ 0xFF))
    ∧ (s.data_index_ = 1 →
        (check_byte_ s = Continue ↔ byteAt s.data_ 1 = 0x19)
        ∧ (check_byte_ s = Reject ↔ byteAt s.data_ 1 ≠ 0x19))
    ∧ (s.data_index_ = 2 →
        (check_byte_ s = Continue ↔ byteAt s.data_ 2 = 0x02)
        ∧ (check_byte_ s = Reject ↔ byteAt s.data_ 2 ≠ 0x02))
    ∧ (s.data_index_ = 3 ∨ s.data_index_ = 4 ∨ s.data_index_ = 5 → check_byte_ s = Continue)
    ∧ (s.data_index_ = 7 → check_byte_ s = FrameComplete)
    ∧ (check_byte_ s = FrameComplete → s.data_index_ = 7) := by
  rw [check_byte_co100 s hty hidx]
  refine ⟨?_, ?_, ?_, ?_, ?_, ?_⟩
  · intro h; simp [h]
  · intro h; simp [h]
  · intro h; simp [h]
  · intro h; rcases h with h | h | h <;> simp [h]
  · intro h; simp [h]
  · intro h
    by_contra h7
    split_ifs at h

theorem check_byte_co100_rules_witness :
    (initial PROSENSE_TYPE_CO100).type_ = PROSENSE_TYPE_CO100
      ∧ (initial PROSENSE_TYPE_CO100).data_index_ < 256
      ∧ ((initial PROSENSE_TYPE_CO100).data_index_ = 0 →
          (check_byte_ (initial PROSENSE_TYPE_CO100) = Continue
            ↔ byteAt (initial PROSENSE_TYPE_CO100).data_ 0 = 0xFF)
          ∧ (check_byte_ (initial PROSENSE_TYPE_CO100) = Reject
            ↔ byteAt (initial PROSENSE_TYPE_CO100).data_ 0 ≠ 0xFF)) :=
  ⟨by decide, by decide,
    (check_byte_co100_rules (initial PROSENSE_TYPE_CO100) (by decide) (by decide)).1⟩

/-- C5. DSRF positional rules away from the checksum position: "next byte" at
index 0 iff the byte is `0xFF` and at index 1 iff it is `0x05`, "wrong data"
otherwise there; "next byte" at every index 2..11 for every byte; "finished"
at index 13 for every byte, and at no other index. -/
theorem check_byte_dsrf_rules (s : ProsenseComponent)
    (hty : s.type_ = PROSENSE_TYPE_DSRF) (hidx : s.data_index_ < 256) :
    (s.data_index_ = 0 →
        (check_byte_ s = Continue ↔ byteAt s.data_ 0 = 0xFF)
        ∧ (check_byte_ s = Reject ↔ byteAt s.data_ 0 ≠ 0xFF))
    ∧ (s.data_index_ = 1 →
        (check_byte_ s = Continue ↔ byteAt s.data_ 1 = 0x05)
        ∧ (check_byte_ s = Reject ↔ byteAt s.data_ 1 ≠ 0x05))
    ∧ (2 ≤ s.data_index_ ∧ s.data_index_ ≤ 11 → check_byte_ s = Continue)
    ∧ (s.data_index_ = 13 → check_byte_ s = FrameComplete)
    ∧ (check_byte_ s = FrameComplete → s.data_index_ = 13) := by
  rw [check_byte_dsrf s hty hidx]
  refine ⟨?_, ?_, ?_, ?_, ?_⟩
  · intro h; simp [h]
  · intro h; simp [h]
  · intro h
    have h0 : s.data_index_ ≠ 0 := by omega
    have h1 : s.data_index_ ≠ 1 := by omega
    have h13 : s.data_index_ ≠ 13 := by omega
    simp [h0, h1, h13]
  · intro h; simp [h]
  · intro h
    by_contra h13
    split_ifs at h

theorem check_byte_dsrf_rules_witness :
    (initial PROSENSE_TYPE_DSRF).type_ = PROSENSE_TYPE_DSRF
      ∧ (initial PROSENSE_TYPE_DSRF).data_index_ < 256
      ∧ ((initial PROSENSE_TYPE_DSRF).data_index_ = 0 →
          (check_byte_ (initial PROSENSE_TYPE_DSRF) = Continue
            ↔ byteAt (initial PROSENSE_TYPE_DSRF).data_ 0 = 0xFF)
          ∧ (check_byte_ (initial PROSENSE_TYPE_DSRF) = Reject
            ↔ byteAt (initial PROSENSE_TYPE_DSRF).data_ 0 ≠ 0xFF)) :=
  ⟨by decide, by decide,
    (check_byte_dsrf_rules (initial PROSENSE_TYPE_DSRF) (by decide) (by decide)).1⟩

/-! ## End-to-end decoding -/

theorem byteAt_eq_getElem (data : List Nat) (i : Nat) (h : i < data.length) :
    byteAt data i = data[i] := by
  unfold byteAt
  rw [List.getD_eq_getElem _ _ h]

theorem byteAt_set_self (data : List Nat) (k b : Nat) (h : k < data.length) :
    byteAt (data.set k b) k = b := by
  simp [byteAt, List.getD, h]

theorem byteAt_set_ne (data : List Nat) (k i b : Nat) (h : i ≠ k) :
    byteAt (data.set k b) i = byteAt data i := by
  simp [byteAt, List.getD, List.getElem?_set_ne (Ne.symm h)]

theorem packetLength_le (type : Nat) : packetLength type ≤ 14 ∧ 8 ≤ packetLength type := by
  unfold packetLength; split <;> simp [CO100_PACKET_LENGTH, DSRF_PACKET_LENGTH]

theorem check_byte_frame (type : Nat) (frame : List Nat) (s : ProsenseComponent) (k : Nat)
    (hty : type = PROSENSE_TYPE_CO100 ∨ type = PROSENSE_TYPE_DSRF)
    (hhdr : headerValid type frame) (hs : s.type_ = type) (hk : s.data_index_ = k)
    (hlt : k < packetLength type) (hb : byteAt s.data_ k = byteAt frame k) :
    check_byte_ s = if k = packetLength type - 1 then none else some true := by
  have hne2 : ¬ (PROSENSE_TYPE_DSRF = PROSENSE_TYPE_CO100) := by decide
  rcases hty with hty | hty
  · subst hty
    rw [check_byte_co100 s hs (by rw [hk]; have := packetLength_le PROSENSE_TYPE_CO100; omega)]
    simp only [headerValid, if_true, CO100_START_BYTE, CO100_GAS_CO, CO100_UNIT_PPM] at hhdr
    simp only [packetLength, if_true, CO100_PACKET_LENGTH] at hlt ⊢
    rw [hk]
    by_cases h0 : k = 0
    · subst h0; simp [hb, hhdr.1]
    by_cases h1 : k = 1
    · subst h1; simp [hb, hhdr.2.1]
    by_cases h2 : k = 2
    · subst h2; simp [hb, hhdr.2.2]
    simp [h0, h1, h2]
  · subst hty
    rw [check_byte_dsrf s hs (by rw [hk]; have := packetLength_le PROSENSE_TYPE_DSRF; omega)]
    simp only [headerValid, hne2, if_false, DSRF_START_BYTE, DSRF_RESERVED_BYTE] at hhdr
    simp only [packetLength, hne2, if_false, DSRF_PACKET_LENGTH] at hlt ⊢
    rw [hk]
    by_cases h0 : k = 0
    · subst h0; simp [hb, hhdr.1]
    by_cases h1 : k = 1
    · subst h1; simp [hb, hhdr.2]
    simp [h0, h1]

theorem loopWhile_cons_continue (s : ProsenseComponent) (b : Nat) (rest : List Nat)
    (hidx : s.data_index_ < DATA_SIZE)
    (hc : check_byte_ { s with data_ := s.data_.set s.data_index_ b } = some true) :
    loopWhile s (b :: rest) =
      (loopWhile { s with data_ := s.data_.set s.data_index_ b,
                          data_index_ := (s.data_index_ + 1) % 256 } rest).withStore
        s.data_index_ b := by
  have h : ¬ (s.data_index_ ≥ DATA_SIZE) := by omega
  simp only [loopWhile, h, if_false, hc]

theorem loopWhile_cons_finished (s : ProsenseComponent) (b : Nat) (rest : List Nat)
    (hidx : s.data_index_ < DATA_SIZE)
    (hc : check_byte_ { s with data_ := s.data_.set s.data_index_ b } = none) :
    loopWhile s (b :: rest) =
      ⟨{ (parse_data_ { s with data_ := s.data_.set s.data_index_ b }).1 with data_index_ := 0 },
        [], (parse_data_ { s with data_ := s.data_.set s.data_index_ b }).2,
        [(s.data_.set s.data_index_ b, s.data_index_)], [(s.data_index_, b)], rest⟩ := by
  have h : ¬ (s.data_index_ ≥ DATA_SIZE) := by omega
  simp only [loopWhile, h, if_false, hc]

theorem drop_eq_cons_append (frame : List Nat) (k b : Nat) (rest tail : List Nat)
    (h : frame.drop k = (b :: rest) ++ tail) :
    k < frame.length ∧ byteAt frame k = b ∧ frame.drop (k + 1) = rest ++ tail := by
  have hk : k < frame.length := by
    by_contra hge
    rw [List.drop_eq_nil_of_le (by omega)] at h
    simp at h
  rw [List.drop_eq_getElem_cons hk] at h
  simp only [List.cons_append, List.cons.injEq] at h
  refine ⟨hk, ?_, h.2⟩
  simp [byteAt, List.getD, List.getElem?_eq_getElem hk, h.1]

/-- Feeding `loopWhile` a run of consecutive bytes of a valid frame. -/
theorem loopWhile_frame_segment (type : Nat) (frame : List Nat)
    (hty : type = PROSENSE_TYPE_CO100 ∨ type = PROSENSE_TYPE_DSRF)
    (hlen : frame.length = packetLength type) (hhdr : headerValid type frame)
    (tail : List Nat) :
    ∀ (chunk : List Nat) (k : Nat) (s : ProsenseComponent),
      Holds type frame k s → frame.drop k = chunk ++ tail →
      (tail ≠ [] →
        Holds type frame (k + chunk.length) (loopWhile s chunk).comp
          ∧ (loopWhile s chunk).rx = [] ∧ (loopWhile s chunk).parsed = []
          ∧ (loopWhile s chunk).published = []
          ∧ (loopWhile s chunk).comp.last_transmission_ = s.last_transmission_)
      ∧ (tail = [] → chunk ≠ [] →
        ∃ buf, (loopWhile s chunk).parsed = [(buf, packetLength type - 1)]
          ∧ buf.length = DATA_SIZE ∧ (∀ i, i < packetLength type → byteAt buf i = byteAt frame i)
          ∧ (loopWhile s chunk).comp.data_index_ = 0 ∧ (loopWhile s chunk).rx = []) := by
  intro chunk
  induction chunk with
  | nil =>
    intro k s hs _
    refine ⟨fun _ => ?_, fun _ h => absurd rfl h⟩
    simpa [loopWhile] using hs
  | cons b rest ih =>
    intro k s hs hdrop
    obtain ⟨hst, hsl, hsk, hsp⟩ := hs
    obtain ⟨hk, hb, hdrop'⟩ := drop_eq_cons_append frame k b rest tail hdrop
    have hL := packetLength_le type
    have hk64 : s.data_index_ < DATA_SIZE := by rw [hsk]; unfold DATA_SIZE; omega
    have hkl : k < s.data_.length := by rw [hsl]; unfold DATA_SIZE; omega
    have hcheck := check_byte_frame type frame
      { s with data_ := s.data_.set s.data_index_ b } k hty hhdr hst hsk (by omega)
      (by simp only [hsk]; rw [byteAt_set_self _ _ _ hkl, hb])
    by_cases hfin : k = packetLength type - 1
    · -- the completing byte
      rw [if_pos hfin] at hcheck
      have hnil : rest ++ tail = [] := by
        rw [← hdrop']; exact List.drop_eq_nil_of_le (by omega)
      have hrest : rest = [] := (List.append_eq_nil.mp hnil).1
      have htail : tail = [] := (List.append_eq_nil.mp hnil).2
      refine ⟨fun h => absurd htail h, fun _ _ => ?_⟩
      rw [loopWhile_cons_finished s b rest hk64 hcheck]
      refine ⟨s.data_.set s.data_index_ b, ?_, ?_, ?_, rfl, rfl⟩
      · rw [hsk, hfin]
      · simpa using hsl
      · intro i hi
        by_cases hik : i = k
        · rw [hik, hsk, byteAt_set_self _ _ _ hkl, hb]
        · rw [hsk, byteAt_set_ne _ _ _ _ hik]
          exact hsp i (by omega)
    · rw [if_neg hfin] at hcheck
      rw [loopWhile_cons_continue s b rest hk64 hcheck]
      have hmod : (s.data_index_ + 1) % 256 = k + 1 := by rw [hsk]; omega
      have hs' : Holds type frame (k + 1)
          { s with data_ := s.data_.set s.data_index_ b,
                   data_index_ := (s.data_index_ + 1) % 256 } := by
        refine ⟨hst, by simpa using hsl, hmod, ?_⟩
        intro i hi
        show byteAt (s.data_.set s.data_index_ b) i = byteAt frame i
        by_cases hik : i = k
        · rw [hik, hsk, byteAt_set_self _ _ _ hkl, hb]
        · rw [hsk, byteAt_set_ne _ _ _ _ hik]
          exact hsp i (by omega)
      obtain ⟨ihA, ihB⟩ := ih (k + 1) _ hs' hdrop'
      refine ⟨fun ht => ?_, fun ht _ => ?_⟩
      · obtain ⟨h1, h2, h3, h4, h5⟩ := ihA ht
        refine ⟨?_, h2, h3, h4, h5⟩
        have : k + (b :: rest).length = k + 1 + rest.length := by simp; omega
        rw [this]; exact h1
      · have hrest : rest ≠ [] := by
          intro hr
          rw [hr, ht] at hdrop'
          have : frame.length ≤ k + 1 := by
            by_contra hcon
            have := List.drop_eq_nil_iff.mp hdrop'
            omega
          omega
        exact ihB ht hrest

theorem loop_no_reset (now : Nat) (s : ProsenseComponent) (rx : List Nat)
    (h : s.data_index_ = 0 ∨ sub32 now s.last_transmission_ < 500) :
    loop now s rx =
      match rx with
      | [] => ⟨s, [], [], [], [], []⟩
      | b :: rest => loopWhile { s with last_transmission_ := now } (b :: rest) := by
  have hs : (if sub32 now s.last_transmission_ ≥ 500 then { s with data_index_ := 0 } else s)
      = s := by
    rcases h with h | h
    · split
      · cases s; simp_all
      · rfl
    · rw [if_neg (by omega)]
  unfold loop
  simp only [hs]

theorem holds_touch (type : Nat) (frame : List Nat) (k : Nat) (s : ProsenseComponent)
    (now : Nat) (h : Holds type frame k s) :
    Holds type frame k { s with last_transmission_ := now } := h

/-- Polls that deliver a valid frame piecewise, generalised over the bytes
already held. -/
theorem runPolls_frame (type : Nat) (frame : List Nat)
    (hty : type = PROSENSE_TYPE_CO100 ∨ type = PROSENSE_TYPE_DSRF)
    (hlen : frame.length = packetLength type) (hhdr : headerValid type frame)
    (now : Nat) (chunk : List Nat) (hchunk : chunk ≠ []) :
    ∀ (pre : List Poll) (t : Trace) (k : Nat) (last : Option Nat),
      t.rx = [] → Holds type frame k t.comp → Synced last t.comp →
      frame.drop k = delivered (pre ++ [(now, chunk)]) →
      timely last (pre ++ [(now, chunk)]) = true →
      (runPolls t pre).parsed = t.parsed ∧ (runPolls t pre).published = t.published
      ∧ ∃ buf,
          (loop now (runPolls t pre).comp ((runPolls t pre).rx ++ chunk)).parsed
            = [(buf, packetLength type - 1)]
          ∧ buf.take (packetLength type) = frame
          ∧ (loop now (runPolls t pre).comp ((runPolls t pre).rx ++ chunk)).comp.data_index_ = 0 := by
  intro pre
  induction pre with
  | nil =>
    intro t k last hrx hh hsync hdrop htime
    refine ⟨rfl, rfl, ?_⟩
    simp only [runPolls, hrx, List.nil_append]
    have hnr : t.comp.data_index_ = 0 ∨ sub32 now t.comp.last_transmission_ < 500 := by
      cases last with
      | none => exact Or.inl hsync
      | some x =>
        right
        simp only [List.nil_append, timely, Bool.and_eq_true, decide_eq_true_eq] at htime
        have hx : t.comp.last_transmission_ = x := hsync
        rw [hx]; exact htime.1
    rw [loop_no_reset now t.comp chunk hnr]
    obtain ⟨b, rest, rfl⟩ := List.exists_cons_of_ne_nil hchunk
    simp only
    have hd : frame.drop k = (b :: rest) ++ [] := by simpa [delivered] using hdrop
    obtain ⟨buf, h1, h2, h3, h4, _⟩ :=
      (loopWhile_frame_segment type frame hty hlen hhdr [] (b :: rest) k _
        (holds_touch type frame k t.comp now hh) hd).2 rfl (by simp)
    refine ⟨buf, h1, ?_, h4⟩
    have hL := packetLength_le type
    apply List.ext_getElem
    · rw [List.length_take, h2, hlen]; unfold DATA_SIZE; omega
    · intro i hi1 hi2
      have hi : i < packetLength type := by rw [hlen] at hi2; exact hi2
      have hib : i < buf.length := by rw [h2]; unfold DATA_SIZE; omega
      have := h3 i hi
      rw [byteAt_eq_getElem buf i hib, byteAt_eq_getElem frame i hi2] at this
      rw [List.getElem_take]; exact this
  | cons p pre ih =>
    intro t k last hrx hh hsync hdrop htime
    obtain ⟨n, bytes⟩ := p
    simp only [List.cons_append, timely, Bool.and_eq_true] at htime
    have hnr : t.comp.data_index_ = 0 ∨ sub32 n t.comp.last_transmission_ < 500 := by
      cases last with
      | none => exact Or.inl hsync
      | some x =>
        right
        have hx : t.comp.last_transmission_ = x := hsync
        have := htime.1
        simp only [decide_eq_true_eq] at this
        rw [hx]; exact this
    have hd : frame.drop k = bytes ++ delivered (pre ++ [(now, chunk)]) := by
      simpa [delivered] using hdrop
    have htl : delivered (pre ++ [(now, chunk)]) ≠ [] := by
      clear ih hd hdrop htime
      induction pre with
      | nil => simpa [delivered] using hchunk
      | cons q pre ihp =>
        obtain ⟨m, bs⟩ := q
        simp only [List.cons_append, delivered]
        intro hc
        exact ihp (List.append_eq_nil.mp hc).2
    simp only [runPolls, List.cons_append, hrx, List.nil_append]
    rw [loop_no_reset n t.comp bytes hnr]
    cases bytes with
    | nil =>
      simp only [List.append_nil]
      have := ih ⟨t.comp, [], t.published, t.parsed⟩ k last rfl hh hsync
        (by simpa using hd) (by simpa using htime.2)
      exact this
    | cons b rest =>
      simp only
      obtain ⟨h1, h2, h3, h4, h5⟩ :=
        (loopWhile_frame_segment type frame hty hlen hhdr _ (b :: rest) k _
          (holds_touch type frame k t.comp n hh) hd).1 htl
      have hd' : frame.drop (k + (b :: rest).length) = delivered (pre ++ [(now, chunk)]) := by
        have := congrArg (List.drop (b :: rest).length) hd
        rw [List.drop_drop, List.drop_left] at this
        rw [← this]
      have := ih ⟨(loopWhile { t.comp with last_transmission_ := n } (b :: rest)).comp,
          (loopWhile { t.comp with last_transmission_ := n } (b :: rest)).rx,
          t.published ++ (loopWhile { t.comp with last_transmission_ := n } (b :: rest)).published,
          t.parsed ++ (loopWhile { t.comp with last_transmission_ := n } (b :: rest)).parsed⟩
        (k + (b :: rest).length) (some n) h2 h1 h5 hd' (by simpa using htime.2)
      simpa [h3, h4] using this

theorem runPolls_snoc (pre : List Poll) (now : Nat) (bytes : List Nat) :
    ∀ t : Trace, runPolls t (pre ++ [(now, bytes)]) =
      ⟨(loop now (runPolls t pre).comp ((runPolls t pre).rx ++ bytes)).comp,
        (loop now (runPolls t pre).comp ((runPolls t pre).rx ++ bytes)).rx,
        (runPolls t pre).published
          ++ (loop now (runPolls t pre).comp ((runPolls t pre).rx ++ bytes)).published,
        (runPolls t pre).parsed
          ++ (loop now (runPolls t pre).comp ((runPolls t pre).rx ++ bytes)).parsed⟩ := by
  induction pre with
  | nil => intro t; rfl
  | cons p pre ih =>
    intro t
    obtain ⟨n, bs⟩ := p
    simp only [List.cons_append, runPolls]
    exact ih _

/-- C6. End-to-end decode of a valid frame: for a recognised variant with
packet length `L`, an `L`-byte frame with valid header and checksum, and a
component at index 0, deliver the frame split in any way over successive calls
of `loop`, each less than 500 time units after the previous call that received
bytes, the last call `(now, chunk)` delivering the last byte. Then the calls
before the last invoke `parse_data_` never, and over all calls `parse_data_`
is invoked exactly once, at index `L - 1` on a buffer whose first `L` bytes
are the frame; the index is 0 after the last call. -/
theorem loop_decodes_valid_frame (s : ProsenseComponent) (frame : List Nat)
    (pre : List Poll) (now : Nat) (chunk : List Nat)
    (hty : s.type_ = PROSENSE_TYPE_CO100 ∨ s.type_ = PROSENSE_TYPE_DSRF)
    (hbuf : s.data_.length = DATA_SIZE) (hpos : s.data_index_ = 0)
    (hlen : frame.length = packetLength s.type_)
    (hhdr : headerValid s.type_ frame) (hsum : checksumValid s.type_ frame)
    (hsplit : delivered (pre ++ [(now, chunk)]) = frame) (hchunk : chunk ≠ [])
    (htime : timely none (pre ++ [(now, chunk)]) = true) :
    (runPolls (Trace.start s) pre).parsed = []
    ∧ ∃ buf,
        (runPolls (Trace.start s) (pre ++ [(now, chunk)])).parsed
          = [(buf, packetLength s.type_ - 1)]
        ∧ buf.take (packetLength s.type_) = frame
        ∧ (runPolls (Trace.start s) (pre ++ [(now, chunk)])).comp.data_index_ = 0 := by
  have _ := hsum
  have hh : Holds s.type_ frame 0 (Trace.start s).comp :=
    ⟨rfl, hbuf, hpos, fun i hi => absurd hi (Nat.not_lt_zero i)⟩
  obtain ⟨h1, _, buf, h3, h4, h5⟩ :=
    runPolls_frame s.type_ frame hty hlen hhdr now chunk hchunk pre (Trace.start s) 0 none
      rfl hh hpos (by simpa using hsplit.symm) htime
  refine ⟨h1, buf, ?_, h4, ?_⟩
  · rw [runPolls_snoc]
    simp only [h1, h3]
    rfl
  · rw [runPolls_snoc]
    exact h5

theorem loop_decodes_valid_frame_witness :
    ((initial PROSENSE_TYPE_CO100).type_ = PROSENSE_TYPE_CO100
        ∨ (initial PROSENSE_TYPE_CO100).type_ = PROSENSE_TYPE_DSRF)
      ∧ (initial PROSENSE_TYPE_CO100).data_.length = DATA_SIZE
      ∧ (initial PROSENSE_TYPE_CO100).data_index_ = 0
      ∧ co100_valid.length = packetLength (initial PROSENSE_TYPE_CO100).type_
      ∧ headerValid (initial PROSENSE_TYPE_CO100).type_ co100_valid
      ∧ checksumValid (initial PROSENSE_TYPE_CO100).type_ co100_valid
      ∧ delivered ([(100, [0xFF, 0x19]), (200, []), (300, [0x02, 0x02, 0x04])]
            ++ [(700, [0xD2, 0x0E, 0x00])]) = co100_valid
      ∧ [0xD2, 0x0E, 0x00] ≠ ([] : List Nat)
      ∧ timely none ([(100, [0xFF, 0x19]), (200, []), (300, [0x02, 0x02, 0x04])]
            ++ [(700, [0xD2, 0x0E, 0x00])]) = true
      ∧ (runPolls (Trace.start (initial PROSENSE_TYPE_CO100))
            [(100, [0xFF, 0x19]), (200, []), (300, [0x02, 0x02, 0x04])]).parsed = []
      ∧ ∃ buf,
          (runPolls (Trace.start (initial PROSENSE_TYPE_CO100))
              ([(100, [0xFF, 0x19]), (200, []), (300, [0x02, 0x02, 0x04])]
                ++ [(700, [0xD2, 0x0E, 0x00])])).parsed
            = [(buf, packetLength (initial PROSENSE_TYPE_CO100).type_ - 1)]
          ∧ buf.take (packetLength (initial PROSENSE_TYPE_CO100).type_) = co100_valid
          ∧ (runPolls (Trace.start (initial PROSENSE_TYPE_CO100))
              ([(100, [0xFF, 0x19]), (200, []), (300, [0x02, 0x02, 0x04])]
                ++ [(700, [0xD2, 0x0E, 0x00])])).comp.data_index_ = 0 :=
  ⟨Or.inl rfl, rfl, rfl, rfl, by decide, by decide, rfl, by decide, by decide,
    loop_decodes_valid_frame (initial PROSENSE_TYPE_CO100) co100_valid
      [(100, [0xFF, 0x19]), (200, []), (300, [0x02, 0x02, 0x04])] 700 [0xD2, 0x0E, 0x00]
      (Or.inl rfl) rfl rfl rfl (by decide) (by decide) rfl (by decide) (by decide)⟩

/-! ## Frame decoder -/

theorem byteAt_lt (data : List Nat) (h : ∀ b ∈ data, b < 256) (i : Nat) :
    byteAt data i < 256 := by
  unfold byteAt
  by_cases hi : i < data.length
  · rw [List.getD_eq_getElem _ _ hi]
    exact h _ (List.getElem_mem hi)
  · rw [List.getD_eq_default _ _ (by omega)]
    decide

theorem get_16_bit_uint_eq (s : ProsenseComponent) (h : ∀ b ∈ s.data_, b < 256) (i : Nat) :
    get_16_bit_uint_ s i = 256 * byteAt s.data_ i + byteAt s.data_ (i + 1) := by
  have h1 := byteAt_lt s.data_ h i
  have h2 := byteAt_lt s.data_ h (i + 1)
  have hor := Nat.mul_add_lt_is_or (i := 8) (b := byteAt s.data_ (i + 1)) (by simpa using h2)
    (byteAt s.data_ i)
  unfold get_16_bit_uint_
  rw [Nat.shiftLeft_eq, Nat.mul_comm, ← hor]
  norm_num
  omega

theorem parse_data_co100_published (s : ProsenseComponent)
    (hty : s.type_ = PROSENSE_TYPE_CO100) (hidx : s.data_index_ = 7) :
    (parse_data_ s).2 = publish_if s.co_sensor_ Sink.co (co_value s) := by
  have hne : ¬ (PROSENSE_TYPE_CO100 = PROSENSE_TYPE_DSRF) := by decide
  simp only [parse_data_, hty, hne, hidx, CO100_PACKET_LENGTH]
  simp

theorem parse_data_dsrf_published (s : ProsenseComponent)
    (hty : s.type_ = PROSENSE_TYPE_DSRF) (hidx : s.data_index_ = 13) :
    (parse_data_ s).2 =
      publish_if s.formaldehyde_sensor_ Sink.formaldehyde ((get_16_bit_uint_ s 2 : ℕ) : ℚ)
        ++ publish_if s.tvoc_sensor_ Sink.tvoc ((get_16_bit_uint_ s 6 : ℕ) : ℚ)
        ++ publish_if s.temperature_sensor_ Sink.temperature (temperature s)
        ++ publish_if s.humidity_sensor_ Sink.humidity (humidity s) := by
  simp only [parse_data_, hty, hidx, DSRF_PACKET_LENGTH]
  simp

theorem publishedTo_append (sink : Sink) (l m : List Publish) :
    publishedTo sink (l ++ m) = publishedTo sink l ++ publishedTo sink m := by
  simp [publishedTo]

theorem publishedTo_publish_if (sink k : Sink) (c : Bool) (v : ℚ) :
    publishedTo sink (publish_if c k v) = if k = sink then publish_if c k v else [] := by
  cases c <;> by_cases h : k = sink <;> simp [publishedTo, publish_if, h]

theorem powf10_finite (d : Nat) (h : d ≤ 38) : powf10 d = some ((10 : ℚ) ^ d) := by
  have h1 : (10 : ℚ) ^ d ≤ (10 : ℚ) ^ 38 := pow_le_pow_right₀ (by norm_num) h
  have h2 : (10 : ℚ) ^ 38 ≤ FLT_MAX := by unfold FLT_MAX; norm_num
  have h3 : ¬ ((10 : ℚ) ^ d > FLT_MAX) := not_lt.mpr (le_trans h1 h2)
  simp only [powf10, h3, if_false]

theorem powf10_overflow (d : Nat) (h : 39 ≤ d) : powf10 d = none := by
  have h1 : (10 : ℚ) ^ 39 ≤ (10 : ℚ) ^ d := pow_le_pow_right₀ (by norm_num) h
  have h2 : FLT_MAX < (10 : ℚ) ^ 39 := by unfold FLT_MAX; norm_num
  have h3 : (10 : ℚ) ^ d > FLT_MAX := lt_of_lt_of_le h2 h1
  simp only [powf10, h3, if_true]

theorem co_value_finite (s : ProsenseComponent) (hbytes : ∀ b ∈ s.data_, b < 256)
    (hd : byteAt s.data_ 3 ≤ 38) :
    co_value s =
      if byteAt s.data_ 3 > 0 then
        ((256 * byteAt s.data_ 4 + byteAt s.data_ 5 : ℕ) : ℚ) / (10 : ℚ) ^ byteAt s.data_ 3
      else ((256 * byteAt s.data_ 4 + byteAt s.data_ 5 : ℕ) : ℚ) := by
  simp only [co_value, get_16_bit_uint_eq s hbytes, powf10_finite _ hd, divf]

theorem co_value_overflow (s : ProsenseComponent) (hd : 39 ≤ byteAt s.data_ 3) :
    co_value s = 0 := by
  have hpos : byteAt s.data_ 3 > 0 := by omega
  simp only [co_value, hpos, if_true, powf10_overflow _ hd, divf]

/-- C7 as stated fails: in the CO100 frame `co100_overflow` the decimal-places
byte is 39 and the raw value is 1234. `loop` completes the frame and invokes
`parse_data_` at index 7, where `powf(10.0f, 39)` is `+inf`, so the value
handed to the CO sensor is `0`, not `1234 / 10^39`. -/
theorem parse_data_co100_overflow :
    (withFrame PROSENSE_TYPE_CO100 co100_overflow).type_ = PROSENSE_TYPE_CO100
    ∧ (withFrame PROSENSE_TYPE_CO100 co100_overflow).data_index_ = 7
    ∧ (∀ b ∈ (withFrame PROSENSE_TYPE_CO100 co100_overflow).data_, b < 256)
    ∧ (loop 1 (initial PROSENSE_TYPE_CO100) co100_overflow).parsed
        = [((withFrame PROSENSE_TYPE_CO100 co100_overflow).data_, 7)]
    ∧ byteAt (withFrame PROSENSE_TYPE_CO100 co100_overflow).data_ 3 = 39
    ∧ 256 * byteAt (withFrame PROSENSE_TYPE_CO100 co100_overflow).data_ 4
        + byteAt (withFrame PROSENSE_TYPE_CO100 co100_overflow).data_ 5 = 1234
    ∧ (parse_data_ (withFrame PROSENSE_TYPE_CO100 co100_overflow)).2 = [⟨Sink.co, 0⟩]
    ∧ (parse_data_ (withFrame PROSENSE_TYPE_CO100 co100_overflow)).2
        ≠ [⟨Sink.co, (1234 : ℚ) / (10 : ℚ) ^ 39⟩] := by
  have hpub : (parse_data_ (withFrame PROSENSE_TYPE_CO100 co100_overflow)).2
      = [⟨Sink.co, 0⟩] := by
    rw [parse_data_co100_published _ rfl rfl,
      co_value_overflow (withFrame PROSENSE_TYPE_CO100 co100_overflow) (by decide)]
    rfl
  refine ⟨rfl, rfl, by decide, by decide, rfl, by decide, hpub, ?_⟩
  rw [hpub]
  intro h
  have hv : (0 : ℚ) = (1234 : ℚ) / (10 : ℚ) ^ 39 := by
    have := congrArg (fun l => l.map Publish.value) h
    simpa using this
  norm_num at hv

/-- C7, amended. CO100 decoding: with the index at 7 and a decimal-places byte
`d = data_[3]` of at most 38, `parse_data_` hands the CO sensor, when one is
set, exactly one value: `raw / 10^d` if `d > 0` and `raw` if `d = 0`, over
exact rationals, where `raw = 256 * data_[4] + data_[5]`; with no CO sensor set
it publishes nothing. The frame `[0xFF,0x19,0x02,0x02,0x04,0xD2,X,0x00]` gives
`1234 / 100`, and a frame with `d = 0` and `raw = 50` gives `50`. -/
theorem parse_data_co100_value (s : ProsenseComponent)
    (hty : s.type_ = PROSENSE_TYPE_CO100) (hidx : s.data_index_ = 7)
    (hbytes : ∀ b ∈ s.data_, b < 256) (hd : byteAt s.data_ 3 ≤ 38) :
    (s.co_sensor_ = true →
      (parse_data_ s).2 =
        [⟨Sink.co,
          if byteAt s.data_ 3 > 0 then
            ((256 * byteAt s.data_ 4 + byteAt s.data_ 5 : ℕ) : ℚ) / (10 : ℚ) ^ byteAt s.data_ 3
          else ((256 * byteAt s.data_ 4 + byteAt s.data_ 5 : ℕ) : ℚ)⟩])
    ∧ (s.co_sensor_ = false → (parse_data_ s).2 = [])
    ∧ (∀ X : Nat,
        (parse_data_ (withFrame PROSENSE_TYPE_CO100 [0xFF, 0x19, 0x02, 0x02, 0x04, 0xD2, X, 0x00])).2
          = [⟨Sink.co, 1234 / 100⟩])
    ∧ (∀ X : Nat,
        (parse_data_ (withFrame PROSENSE_TYPE_CO100 [0xFF, 0x19, 0x02, 0x00, 0x00, 0x32, X, 0x00])).2
          = [⟨Sink.co, 50⟩]) := by
  refine ⟨fun hc => ?_, fun hc => ?_, ?_, ?_⟩
  · rw [parse_data_co100_published s hty hidx, hc, co_value_finite s hbytes hd]
    rfl
  · rw [parse_data_co100_published s hty hidx, hc]
    rfl
  · intro X
    rw [parse_data_co100_published _ rfl rfl]
    have h : get_16_bit_uint_
        (withFrame PROSENSE_TYPE_CO100 [0xFF, 0x19, 0x02, 0x02, 0x04, 0xD2, X, 0x00]) 4
          = 1234 := by
      show ((4 <<< 8) ||| 210) % 65536 = 1234
      decide
    have hd2 : byteAt
        (withFrame PROSENSE_TYPE_CO100 [0xFF, 0x19, 0x02, 0x02, 0x04, 0xD2, X, 0x00]).data_ 3
          = 2 := rfl
    have hc :
        (withFrame PROSENSE_TYPE_CO100 [0xFF, 0x19, 0x02, 0x02, 0x04, 0xD2, X, 0x00]).co_sensor_
          = true := rfl
    simp only [co_value, h, hd2, hc, publish_if, powf10_finite 2 (by decide), divf]
    norm_num
  · intro X
    rw [parse_data_co100_published _ rfl rfl]
    have h : get_16_bit_uint_
        (withFrame PROSENSE_TYPE_CO100 [0xFF, 0x19, 0x02, 0x00, 0x00, 0x32, X, 0x00]) 4
          = 50 := by
      show ((0 <<< 8) ||| 50) % 65536 = 50
      decide
    have hd2 : byteAt
        (withFrame PROSENSE_TYPE_CO100 [0xFF, 0x19, 0x02, 0x00, 0x00, 0x32, X, 0x00]).data_ 3
          = 0 := rfl
    have hc :
        (withFrame PROSENSE_TYPE_CO100 [0xFF, 0x19, 0x02, 0x00, 0x00, 0x32, X, 0x00]).co_sensor_
          = true := rfl
    simp only [co_value, h, hd2, hc, publish_if]
    norm_num

theorem parse_data_co100_value_witness :
    (withFrame PROSENSE_TYPE_CO100 co100_valid).type_ = PROSENSE_TYPE_CO100
      ∧ (withFrame PROSENSE_TYPE_CO100 co100_valid).data_index_ = 7
      ∧ (∀ b ∈ (withFrame PROSENSE_TYPE_CO100 co100_valid).data_, b < 256)
      ∧ byteAt (withFrame PROSENSE_TYPE_CO100 co100_valid).data_ 3 ≤ 38
      ∧ (withFrame PROSENSE_TYPE_CO100 co100_valid).co_sensor_ = true
      ∧ (parse_data_ (withFrame PROSENSE_TYPE_CO100 co100_valid)).2
          = [⟨Sink.co,
              if byteAt (withFrame PROSENSE_TYPE_CO100 co100_valid).data_ 3 > 0 then
                ((256 * byteAt (withFrame PROSENSE_TYPE_CO100 co100_valid).data_ 4
                  + byteAt (withFrame PROSENSE_TYPE_CO100 co100_valid).data_ 5 : ℕ) : ℚ)
                  / (10 : ℚ) ^ byteAt (withFrame PROSENSE_TYPE_CO100 co100_valid).data_ 3
              else ((256 * byteAt (withFrame PROSENSE_TYPE_CO100 co100_valid).data_ 4
                  + byteAt (withFrame PROSENSE_TYPE_CO100 co100_valid).data_ 5 : ℕ) : ℚ)⟩] :=
  ⟨rfl, rfl, by decide, by decide, rfl,
    (parse_data_co100_value (withFrame PROSENSE_TYPE_CO100 co100_valid) rfl rfl (by decide)
      (by decide)).1 rfl⟩

/-- C8. DSRF temperature decoding: with the index at 13, `parse_data_` hands
the temperature sensor, when one is set, exactly one value,
`sign * (data_[9] + data_[10] / 100)` over exact rationals, where `sign` is
`+1` if `data_[8] = 0x00` and `-1` for every other value; with no temperature
sensor set it publishes no temperature. Bytes `(0x00, 25, 50)` at offsets
8..10 give `25.50` and `(0x01, 25, 50)` give `-25.50`. -/
theorem parse_data_dsrf_temperature (s : ProsenseComponent)
    (hty : s.type_ = PROSENSE_TYPE_DSRF) (hidx : s.data_index_ = 13) :
    (s.temperature_sensor_ = true →
      publishedTo Sink.temperature (parse_data_ s).2
        = [⟨Sink.temperature,
            (if byteAt s.data_ 8 = 0x00 then 1 else -1)
              * ((byteAt s.data_ 9 : ℚ) + (byteAt s.data_ 10 : ℚ) / 100)⟩])
    ∧ (s.temperature_sensor_ = false → publishedTo Sink.temperature (parse_data_ s).2 = [])
    ∧ (s.temperature_sensor_ = true →
        byteAt s.data_ 8 = 0x00 → byteAt s.data_ 9 = 25 → byteAt s.data_ 10 = 50 →
        publishedTo Sink.temperature (parse_data_ s).2 = [⟨Sink.temperature, 2550 / 100⟩])
    ∧ (s.temperature_sensor_ = true →
        byteAt s.data_ 8 = 0x01 → byteAt s.data_ 9 = 25 → byteAt s.data_ 10 = 50 →
        publishedTo Sink.temperature (parse_data_ s).2
          = [⟨Sink.temperature, -(2550 / 100)⟩]) := by
  have key : publishedTo Sink.temperature (parse_data_ s).2
      = publish_if s.temperature_sensor_ Sink.temperature (temperature s) := by
    rw [parse_data_dsrf_published s hty hidx]
    simp [publishedTo_append, publishedTo_publish_if]
  refine ⟨?_, ?_, ?_, ?_⟩
  · intro hc
    rw [key, hc]; simp [publish_if, temperature, DSRF_TEMP_POSITIVE]
  · intro hc
    rw [key, hc]; rfl
  · intro hc h8 h9 h10
    rw [key, hc]; simp only [publish_if, temperature, DSRF_TEMP_POSITIVE, h8, h9, h10]
    norm_num
  · intro hc h8 h9 h10
    rw [key, hc]; simp only [publish_if, temperature, DSRF_TEMP_POSITIVE, h8, h9, h10]
    norm_num

theorem parse_data_dsrf_temperature_witness :
    (withFrame PROSENSE_TYPE_DSRF dsrf_valid).type_ = PROSENSE_TYPE_DSRF
      ∧ (withFrame PROSENSE_TYPE_DSRF dsrf_valid).data_index_ = 13
      ∧ (withFrame PROSENSE_TYPE_DSRF dsrf_valid).temperature_sensor_ = true
      ∧ byteAt (withFrame PROSENSE_TYPE_DSRF dsrf_valid).data_ 8 = 0x00
      ∧ byteAt (withFrame PROSENSE_TYPE_DSRF dsrf_valid).data_ 9 = 25
      ∧ byteAt (withFrame PROSENSE_TYPE_DSRF dsrf_valid).data_ 10 = 50
      ∧ publishedTo Sink.temperature (parse_data_ (withFrame PROSENSE_TYPE_DSRF dsrf_valid)).2
          = [⟨Sink.temperature, 2550 / 100⟩] :=
  ⟨rfl, rfl, rfl, rfl, rfl, rfl,
    (parse_data_dsrf_temperature (withFrame PROSENSE_TYPE_DSRF dsrf_valid) rfl rfl).2.2.1
      rfl rfl rfl rfl⟩

/-- C9. DSRF gas and humidity decoding: with the index at 13, `parse_data_`
hands the formaldehyde sensor exactly `256 * data_[2] + data_[3]`, the TVOC
sensor exactly `256 * data_[6] + data_[7]` (both in `0..65535`) and the
humidity sensor exactly `data_[11] + data_[12] / 100` over exact rationals,
each when that sensor is set, and nothing to a sensor that is not set. -/
theorem parse_data_dsrf_gas_humidity (s : ProsenseComponent)
    (hty : s.type_ = PROSENSE_TYPE_DSRF) (hidx : s.data_index_ = 13)
    (hbytes : ∀ b ∈ s.data_, b < 256) :
    (s.formaldehyde_sensor_ = true →
      publishedTo Sink.formaldehyde (parse_data_ s).2
        = [⟨Sink.formaldehyde, ((256 * byteAt s.data_ 2 + byteAt s.data_ 3 : ℕ) : ℚ)⟩])
    ∧ (s.tvoc_sensor_ = true →
      publishedTo Sink.tvoc (parse_data_ s).2
        = [⟨Sink.tvoc, ((256 * byteAt s.data_ 6 + byteAt s.data_ 7 : ℕ) : ℚ)⟩])
    ∧ (s.humidity_sensor_ = true →
      publishedTo Sink.humidity (parse_data_ s).2
        = [⟨Sink.humidity, (byteAt s.data_ 11 : ℚ) + (byteAt s.data_ 12 : ℚ) / 100⟩])
    ∧ (s.formaldehyde_sensor_ = false → publishedTo Sink.formaldehyde (parse_data_ s).2 = [])
    ∧ (s.tvoc_sensor_ = false → publishedTo Sink.tvoc (parse_data_ s).2 = [])
    ∧ (s.humidity_sensor_ = false → publishedTo Sink.humidity (parse_data_ s).2 = [])
    ∧ 256 * byteAt s.data_ 2 + byteAt s.data_ 3 ≤ 65535
    ∧ 256 * byteAt s.data_ 6 + byteAt s.data_ 7 ≤ 65535 := by
  have h2 := byteAt_lt s.data_ hbytes 2
  have h3 := byteAt_lt s.data_ hbytes 3
  have h6 := byteAt_lt s.data_ hbytes 6
  have h7 := byteAt_lt s.data_ hbytes 7
  have kf : publishedTo Sink.formaldehyde (parse_data_ s).2
      = publish_if s.formaldehyde_sensor_ Sink.formaldehyde
          ((256 * byteAt s.data_ 2 + byteAt s.data_ 3 : ℕ) : ℚ) := by
    rw [parse_data_dsrf_published s hty hidx]
    simp only [get_16_bit_uint_eq s hbytes]
    simp [publishedTo_append, publishedTo_publish_if]
  have kt : publishedTo Sink.tvoc (parse_data_ s).2
      = publish_if s.tvoc_sensor_ Sink.tvoc
          ((256 * byteAt s.data_ 6 + byteAt s.data_ 7 : ℕ) : ℚ) := by
    rw [parse_data_dsrf_published s hty hidx]
    simp only [get_16_bit_uint_eq s hbytes]
    simp [publishedTo_append, publishedTo_publish_if]
  have kh : publishedTo Sink.humidity (parse_data_ s).2
      = publish_if s.humidity_sensor_ Sink.humidity
          ((byteAt s.data_ 11 : ℚ) + (byteAt s.data_ 12 : ℚ) / 100) := by
    rw [parse_data_dsrf_published s hty hidx]
    simp [publishedTo_append, publishedTo_publish_if, humidity]
  refine ⟨?_, ?_, ?_, ?_, ?_, ?_, by omega, by omega⟩
  · intro hc; rw [kf, hc]; rfl
  · intro hc; rw [kt, hc]; rfl
  · intro hc; rw [kh, hc]; rfl
  · intro hc; rw [kf, hc]; rfl
  · intro hc; rw [kt, hc]; rfl
  · intro hc; rw [kh, hc]; rfl

theorem parse_data_dsrf_gas_humidity_witness :
    (withFrame PROSENSE_TYPE_DSRF dsrf_valid).type_ = PROSENSE_TYPE_DSRF
      ∧ (withFrame PROSENSE_TYPE_DSRF dsrf_valid).data_index_ = 13
      ∧ (∀ b ∈ (withFrame PROSENSE_TYPE_DSRF dsrf_valid).data_, b < 256)
      ∧ (withFrame PROSENSE_TYPE_DSRF dsrf_valid).formaldehyde_sensor_ = true
      ∧ (withFrame PROSENSE_TYPE_DSRF dsrf_valid).tvoc_sensor_ = true
      ∧ (withFrame PROSENSE_TYPE_DSRF dsrf_valid).humidity_sensor_ = true
      ∧ publishedTo Sink.formaldehyde
          (parse_data_ (withFrame PROSENSE_TYPE_DSRF dsrf_valid)).2
          = [⟨Sink.formaldehyde,
              ((256 * byteAt (withFrame PROSENSE_TYPE_DSRF dsrf_valid).data_ 2
                + byteAt (withFrame PROSENSE_TYPE_DSRF dsrf_valid).data_ 3 : ℕ) : ℚ)⟩]
      ∧ publishedTo Sink.tvoc (parse_data_ (withFrame PROSENSE_TYPE_DSRF dsrf_valid)).2
          = [⟨Sink.tvoc,
              ((256 * byteAt (withFrame PROSENSE_TYPE_DSRF dsrf_valid).data_ 6
                + byteAt (withFrame PROSENSE_TYPE_DSRF dsrf_valid).data_ 7 : ℕ) : ℚ)⟩]
      ∧ publishedTo Sink.humidity (parse_data_ (withFrame PROSENSE_TYPE_DSRF dsrf_valid)).2
          = [⟨Sink.humidity,
              (byteAt (withFrame PROSENSE_TYPE_DSRF dsrf_valid).data_ 11 : ℚ)
                + (byteAt (withFrame PROSENSE_TYPE_DSRF dsrf_valid).data_ 12 : ℚ) / 100⟩] :=
  ⟨rfl, rfl, by decide, rfl, rfl, rfl,
    (parse_data_dsrf_gas_humidity (withFrame PROSENSE_TYPE_DSRF dsrf_valid) rfl rfl
      (by decide)).1 rfl,
    (parse_data_dsrf_gas_humidity (withFrame PROSENSE_TYPE_DSRF dsrf_valid) rfl rfl
      (by decide)).2.1 rfl,
    (parse_data_dsrf_gas_humidity (withFrame PROSENSE_TYPE_DSRF dsrf_valid) rfl rfl
      (by decide)).2.2.1 rfl⟩

theorem co100_sample_published (s : ProsenseComponent)
    (hty : s.type_ = PROSENSE_TYPE_CO100) (hidx : s.data_index_ = 7)
    (hdata : s.data_ = co100_valid ++ List.replicate 56 0) (hc : s.co_sensor_ = true) :
    (parse_data_ s).2 = [⟨Sink.co, 617 / 50⟩] := by
  rw [parse_data_co100_published s hty hidx]
  have g4 : get_16_bit_uint_ s 4 = 1234 := by
    unfold get_16_bit_uint_
    rw [hdata]
    show ((4 <<< 8) ||| 210) % 65536 = 1234
    decide
  have b3 : byteAt s.data_ 3 = 2 := by rw [hdata]; rfl
  simp only [co_value, g4, b3, hc, publish_if, powf10_finite 2 (by decide), divf]
  norm_num

theorem dsrf_sample_published (s : ProsenseComponent)
    (hty : s.type_ = PROSENSE_TYPE_DSRF) (hidx : s.data_index_ = 13)
    (hdata : s.data_ = dsrf_valid ++ List.replicate 50 0)
    (c1 : s.formaldehyde_sensor_ = true) (c2 : s.tvoc_sensor_ = true)
    (c3 : s.temperature_sensor_ = true) (c4 : s.humidity_sensor_ = true) :
    (parse_data_ s).2
      = [⟨Sink.formaldehyde, 1⟩, ⟨Sink.tvoc, 3⟩, ⟨Sink.temperature, 51 / 2⟩,
          ⟨Sink.humidity, 4131 / 100⟩] := by
  rw [parse_data_dsrf_published s hty hidx]
  have g2 : get_16_bit_uint_ s 2 = 1 := by
    unfold get_16_bit_uint_
    rw [hdata]
    show ((0 <<< 8) ||| 1) % 65536 = 1
    decide
  have g6 : get_16_bit_uint_ s 6 = 3 := by
    unfold get_16_bit_uint_
    rw [hdata]
    show ((0 <<< 8) ||| 3) % 65536 = 3
    decide
  have b8 : byteAt s.data_ 8 = 0 := by rw [hdata]; rfl
  have b9 : byteAt s.data_ 9 = 25 := by rw [hdata]; rfl
  have b10 : byteAt s.data_ 10 = 50 := by rw [hdata]; rfl
  have b11 : byteAt s.data_ 11 = 40 := by rw [hdata]; rfl
  have b12 : byteAt s.data_ 12 = 131 := by rw [hdata]; rfl
  simp only [g2, g6, c1, c2, c3, c4, publish_if, temperature, humidity, b8, b9, b10, b11, b12,
    DSRF_TEMP_POSITIVE]
  norm_num

/-- C10. Wrong-length guard: for a recognised variant with packet length `L`,
at every index other than `L - 1` `parse_data_` publishes nothing and leaves
the component (warning bit included) as it was; at index `L - 1` it clears the
warning bit, changes nothing else, and publishes the fields of the variant:
the CO value for CO100, and formaldehyde, TVOC, temperature and humidity in
that order for DSRF, one value for each sensor that is set. On the sample
frames with the warning latched it publishes `12.34` (CO100) and
`1, 3, 25.5, 41.31` (DSRF) and clears the warning; at index 3 it publishes
nothing and the warning stays. -/
theorem parse_data_length_guard (s : ProsenseComponent)
    (hty : s.type_ = PROSENSE_TYPE_CO100 ∨ s.type_ = PROSENSE_TYPE_DSRF) :
    (s.data_index_ ≠ packetLength s.type_ - 1 → parse_data_ s = (s, []))
    ∧ (s.data_index_ = packetLength s.type_ - 1 →
        (parse_data_ s).1 = { s with status_warning := false }
        ∧ (s.type_ = PROSENSE_TYPE_CO100 →
            (parse_data_ s).2
              = if s.co_sensor_ = true then [⟨Sink.co, co_value s⟩] else [])
        ∧ (s.type_ = PROSENSE_TYPE_DSRF →
            (parse_data_ s).2
              = (if s.formaldehyde_sensor_ = true then
                    [⟨Sink.formaldehyde, ((get_16_bit_uint_ s 2 : ℕ) : ℚ)⟩] else [])
                ++ (if s.tvoc_sensor_ = true then
                    [⟨Sink.tvoc, ((get_16_bit_uint_ s 6 : ℕ) : ℚ)⟩] else [])
                ++ (if s.temperature_sensor_ = true then
                    [⟨Sink.temperature, temperature s⟩] else [])
                ++ (if s.humidity_sensor_ = true then
                    [⟨Sink.humidity, humidity s⟩] else [])))
    ∧ parse_data_ (warned PROSENSE_TYPE_CO100 co100_valid 7)
        = ({ warned PROSENSE_TYPE_CO100 co100_valid 7 with status_warning := false },
            [⟨Sink.co, 617 / 50⟩])
    ∧ parse_data_ (warned PROSENSE_TYPE_DSRF dsrf_valid 13)
        = ({ warned PROSENSE_TYPE_DSRF dsrf_valid 13 with status_warning := false },
            [⟨Sink.formaldehyde, 1⟩, ⟨Sink.tvoc, 3⟩, ⟨Sink.temperature, 51 / 2⟩,
              ⟨Sink.humidity, 4131 / 100⟩])
    ∧ parse_data_ (warned PROSENSE_TYPE_CO100 co100_valid 3)
        = (warned PROSENSE_TYPE_CO100 co100_valid 3, [])
    ∧ (warned PROSENSE_TYPE_CO100 co100_valid 3).status_warning = true := by
  have hne : ¬ (PROSENSE_TYPE_CO100 = PROSENSE_TYPE_DSRF) := by decide
  have hne2 : ¬ (PROSENSE_TYPE_DSRF = PROSENSE_TYPE_CO100) := by decide
  refine ⟨?_, ?_, ?_, ?_, ?_, rfl⟩
  · intro h
    rcases hty with hty | hty
    · simp only [hty, packetLength, if_true] at h
      simp [parse_data_, hty, hne, h]
    · simp only [hty, packetLength, hne2, if_false] at h
      simp [parse_data_, hty, h]
  · intro h
    rcases hty with hty | hty
    · simp only [hty, packetLength, if_true, CO100_PACKET_LENGTH] at h
      refine ⟨?_, fun _ => ?_, fun hd => absurd (hty.symm.trans hd) hne⟩
      · simp [parse_data_, hty, hne, h, CO100_PACKET_LENGTH]
      · rw [parse_data_co100_published s hty h]
        cases hc : s.co_sensor_ <;> simp [publish_if]
    · simp only [hty, packetLength, hne2, if_false, DSRF_PACKET_LENGTH] at h
      refine ⟨?_, fun hc => absurd (hty.symm.trans hc) hne2, fun _ => ?_⟩
      · simp [parse_data_, hty, h, DSRF_PACKET_LENGTH]
      · rw [parse_data_dsrf_published s hty h]
        simp only [publish_if, Bool.cond_eq_ite]
  · apply Prod.ext
    · show (parse_data_ (warned PROSENSE_TYPE_CO100 co100_valid 7)).1 = _
      decide
    · exact co100_sample_published _ rfl rfl rfl rfl
  · apply Prod.ext
    · show (parse_data_ (warned PROSENSE_TYPE_DSRF dsrf_valid 13)).1 = _
      decide
    · exact dsrf_sample_published _ rfl rfl rfl rfl rfl rfl rfl
  · apply Prod.ext
    · show (parse_data_ (warned PROSENSE_TYPE_CO100 co100_valid 3)).1 = _
      decide
    · show (parse_data_ (warned PROSENSE_TYPE_CO100 co100_valid 3)).2 = []
      decide

theorem parse_data_length_guard_witness :
    ((warned PROSENSE_TYPE_CO100 co100_valid 3).type_ = PROSENSE_TYPE_CO100
        ∨ (warned PROSENSE_TYPE_CO100 co100_valid 3).type_ = PROSENSE_TYPE_DSRF)
      ∧ (warned PROSENSE_TYPE_CO100 co100_valid 3).data_index_
          ≠ packetLength (warned PROSENSE_TYPE_CO100 co100_valid 3).type_ - 1
      ∧ parse_data_ (warned PROSENSE_TYPE_CO100 co100_valid 3)
          = (warned PROSENSE_TYPE_CO100 co100_valid 3, [])
      ∧ (warned PROSENSE_TYPE_CO100 co100_valid 7).data_index_
          = packetLength (warned PROSENSE_TYPE_CO100 co100_valid 7).type_ - 1
      ∧ (parse_data_ (warned PROSENSE_TYPE_CO100 co100_valid 7)).1
          = { warned PROSENSE_TYPE_CO100 co100_valid 7 with status_warning := false }
      ∧ (warned PROSENSE_TYPE_CO100 co100_valid 7).co_sensor_ = true
      ∧ (parse_data_ (warned PROSENSE_TYPE_CO100 co100_valid 7)).2
          = (if (warned PROSENSE_TYPE_CO100 co100_valid 7).co_sensor_ = true then
              [⟨Sink.co, co_value (warned PROSENSE_TYPE_CO100 co100_valid 7)⟩] else [])
      ∧ parse_data_ (warned PROSENSE_TYPE_CO100 co100_valid 7)
          = ({ warned PROSENSE_TYPE_CO100 co100_valid 7 with status_warning := false },
              [⟨Sink.co, 617 / 50⟩]) :=
  ⟨Or.inl rfl, by decide,
    (parse_data_length_guard (warned PROSENSE_TYPE_CO100 co100_valid 3) (Or.inl rfl)).1
      (by decide),
    rfl,
    ((parse_data_length_guard (warned PROSENSE_TYPE_CO100 co100_valid 7) (Or.inl rfl)).2.1
      rfl).1,
    rfl,
    ((parse_data_length_guard (warned PROSENSE_TYPE_CO100 co100_valid 7) (Or.inl rfl)).2.1
      rfl).2.1 rfl,
    (parse_data_length_guard (warned PROSENSE_TYPE_CO100 co100_valid 7) (Or.inl rfl)).2.2.1⟩

/-! ## Accumulator: bounds, resynchronisation and draining -/

theorem loopWhile_cons_overflow (s : ProsenseComponent) (b : Nat) (rest : List Nat)
    (hidx : DATA_SIZE ≤ s.data_index_) :
    loopWhile s (b :: rest) = ⟨{ s with data_index_ := 0 }, b :: rest, [], [], [], []⟩ := by
  have h : s.data_index_ ≥ DATA_SIZE := hidx
  simp only [loopWhile, h, if_true]

theorem loopWhile_cons_reject (s : ProsenseComponent) (b : Nat) (rest : List Nat)
    (hidx : s.data_index_ < DATA_SIZE)
    (hc : check_byte_ { s with data_ := s.data_.set s.data_index_ b } = some false) :
    loopWhile s (b :: rest) =
      (loopWhile { s with data_ := s.data_.set s.data_index_ b, data_index_ := 0 } rest).withStore
        s.data_index_ b := by
  have h : ¬ (s.data_index_ ≥ DATA_SIZE) := by omega
  simp only [loopWhile, h, if_false, hc]

theorem parse_data_type (s : ProsenseComponent) : (parse_data_ s).1.type_ = s.type_ := by
  unfold parse_data_
  split_ifs <;> rfl

theorem parse_data_data (s : ProsenseComponent) : (parse_data_ s).1.data_ = s.data_ := by
  unfold parse_data_
  split_ifs <;> rfl

theorem parse_data_last (s : ProsenseComponent) :
    (parse_data_ s).1.last_transmission_ = s.last_transmission_ := by
  unfold parse_data_
  split_ifs <;> rfl

/-- One call of the `while` loop keeps the index within the buffer capacity
and stores only below it. -/
theorem loopWhile_bounded (rx : List Nat) :
    ∀ s : ProsenseComponent,
      (s.data_index_ ≤ DATA_SIZE → (loopWhile s rx).comp.data_index_ ≤ DATA_SIZE)
      ∧ ∀ w ∈ (loopWhile s rx).stored, w.1 < DATA_SIZE := by
  induction rx with
  | nil => intro s; simp [loopWhile]
  | cons b rest ih =>
    intro s
    by_cases hov : DATA_SIZE ≤ s.data_index_
    · rw [loopWhile_cons_overflow s b rest hov]
      simp
    · have hlt : s.data_index_ < DATA_SIZE := by omega
      rcases hc : check_byte_ { s with data_ := s.data_.set s.data_index_ b } with _ | c
      · rw [loopWhile_cons_finished s b rest hlt hc]
        refine ⟨fun _ => Nat.zero_le _, ?_⟩
        intro w hw
        simp only [List.mem_singleton] at hw
        rw [hw]; exact hlt
      · cases c
        · rw [loopWhile_cons_reject s b rest hlt hc]
          obtain ⟨h1, h2⟩ := ih { s with data_ := s.data_.set s.data_index_ b, data_index_ := 0 }
          refine ⟨fun _ => h1 (Nat.zero_le _), ?_⟩
          intro w hw
          simp only [LoopResult.withStore, List.mem_cons] at hw
          rcases hw with hw | hw
          · rw [hw]; exact hlt
          · exact h2 w hw
        · rw [loopWhile_cons_continue s b rest hlt hc]
          obtain ⟨h1, h2⟩ := ih { s with data_ := s.data_.set s.data_index_ b,
                                         data_index_ := (s.data_index_ + 1) % 256 }
          refine ⟨fun _ => h1 ?_, ?_⟩
          · show (s.data_index_ + 1) % 256 ≤ DATA_SIZE
            unfold DATA_SIZE at hlt ⊢
            omega
          · intro w hw
            simp only [LoopResult.withStore, List.mem_cons] at hw
            rcases hw with hw | hw
            · rw [hw]; exact hlt
            · exact h2 w hw

theorem loop_unfold (now : Nat) (s : ProsenseComponent) (rx : List Nat) :
    loop now s rx =
      match rx with
      | [] => ⟨if sub32 now s.last_transmission_ ≥ 500 then { s with data_index_ := 0 } else s,
          [], [], [], [], []⟩
      | b :: rest =>
        loopWhile { (if sub32 now s.last_transmission_ ≥ 500 then { s with data_index_ := 0 }
          else s) with last_transmission_ := now } (b :: rest) := by
  cases rx <;> rfl

theorem loop_bounded (now : Nat) (s : ProsenseComponent) (rx : List Nat) :
    (s.data_index_ ≤ DATA_SIZE → (loop now s rx).comp.data_index_ ≤ DATA_SIZE)
      ∧ ∀ w ∈ (loop now s rx).stored, w.1 < DATA_SIZE := by
  rw [loop_unfold]
  cases rx with
  | nil =>
    refine ⟨fun h => ?_, by simp⟩
    show (if sub32 now s.last_transmission_ ≥ 500 then { s with data_index_ := 0 }
      else s).data_index_ ≤ DATA_SIZE
    split
    · exact Nat.zero_le _
    · exact h
  | cons b rest =>
    simp only
    obtain ⟨h1, h2⟩ := loopWhile_bounded (b :: rest)
      { (if sub32 now s.last_transmission_ ≥ 500 then { s with data_index_ := 0 }
          else s) with last_transmission_ := now }
    refine ⟨fun h => h1 ?_, h2⟩
    show (if sub32 now s.last_transmission_ ≥ 500 then { s with data_index_ := 0 }
      else s).data_index_ ≤ DATA_SIZE
    split
    · exact Nat.zero_le _
    · exact h

theorem runPolls_bounded (polls : List Poll) :
    ∀ t : Trace, t.comp.data_index_ ≤ DATA_SIZE →
      (runPolls t polls).comp.data_index_ ≤ DATA_SIZE := by
  induction polls with
  | nil => intro t h; exact h
  | cons p polls ih =>
    intro t h
    obtain ⟨n, bs⟩ := p
    simp only [runPolls]
    exact ih _ ((loop_bounded n t.comp (t.rx ++ bs)).1 h)

/-- C12. Buffer bound: in every state reached from index 0 by any sequence of
calls of `loop`, with any inputs and clock readings and any `type_`
(recognised or not), the index is at most 64, and any further call of `loop`
stores bytes only at indices below 64. -/
theorem position_within_capacity (s : ProsenseComponent) (polls : List Poll)
    (hpos : s.data_index_ = 0) :
    (runPolls (Trace.start s) polls).comp.data_index_ ≤ DATA_SIZE
    ∧ ∀ (now : Nat) (rx : List Nat),
        ∀ w ∈ (loop now (runPolls (Trace.start s) polls).comp rx).stored, w.1 < DATA_SIZE := by
  refine ⟨runPolls_bounded polls (Trace.start s) ?_, fun now rx => (loop_bounded now _ rx).2⟩
  show s.data_index_ ≤ DATA_SIZE
  rw [hpos]; exact Nat.zero_le _

theorem check_byte_unknown (s : ProsenseComponent) (h1 : s.type_ ≠ PROSENSE_TYPE_CO100)
    (h2 : s.type_ ≠ PROSENSE_TYPE_DSRF) : check_byte_ s = some true := by
  simp [check_byte_, h1, h2]

theorem loopWhile_unknown (rx : List Nat) :
    ∀ s : ProsenseComponent, s.type_ ≠ PROSENSE_TYPE_CO100 → s.type_ ≠ PROSENSE_TYPE_DSRF →
      (loopWhile s rx).parsed = [] ∧ (loopWhile s rx).published = [] := by
  induction rx with
  | nil => intro s _ _; simp [loopWhile]
  | cons b rest ih =>
    intro s h1 h2
    by_cases hov : DATA_SIZE ≤ s.data_index_
    · rw [loopWhile_cons_overflow s b rest hov]
      simp
    · have hlt : s.data_index_ < DATA_SIZE := by omega
      have hc := check_byte_unknown { s with data_ := s.data_.set s.data_index_ b } h1 h2
      rw [loopWhile_cons_continue s b rest hlt hc]
      exact ih _ h1 h2

/-- C18. Unrecognised variant: for a `type_` that is neither CO100 nor DSRF,
`check_byte_` answers "next byte" for every buffer and index, and no call of
`loop` invokes `parse_data_` or publishes a value. -/
theorem unknown_type_never_parses (s : ProsenseComponent)
    (h1 : s.type_ ≠ PROSENSE_TYPE_CO100) (h2 : s.type_ ≠ PROSENSE_TYPE_DSRF) :
    check_byte_ s = Continue
    ∧ ∀ (now : Nat) (rx : List Nat),
        (loop now s rx).parsed = [] ∧ (loop now s rx).published = [] := by
  refine ⟨check_byte_unknown s h1 h2, fun now rx => ?_⟩
  rw [loop_unfold]
  cases rx with
  | nil => simp
  | cons b rest =>
    simp only
    apply loopWhile_unknown
    · show (if sub32 now s.last_transmission_ ≥ 500 then { s with data_index_ := 0 }
        else s).type_ ≠ PROSENSE_TYPE_CO100
      split <;> exact h1
    · show (if sub32 now s.last_transmission_ ≥ 500 then { s with data_index_ := 0 }
        else s).type_ ≠ PROSENSE_TYPE_DSRF
      split <;> exact h2

theorem check_byte_none_iff (s : ProsenseComponent)
    (hty : s.type_ = PROSENSE_TYPE_CO100 ∨ s.type_ = PROSENSE_TYPE_DSRF)
    (hidx : s.data_index_ < 256) :
    check_byte_ s = none ↔ s.data_index_ = packetLength s.type_ - 1 := by
  have hne2 : ¬ (PROSENSE_TYPE_DSRF = PROSENSE_TYPE_CO100) := by decide
  rcases hty with hty | hty
  · rw [check_byte_co100 s hty hidx, hty]
    simp only [packetLength, if_true, CO100_PACKET_LENGTH]
    constructor
    · intro h
      by_contra h7
      split_ifs at h
    · intro h; simp [h]
  · rw [check_byte_dsrf s hty hidx, hty]
    simp only [packetLength, hne2, if_false, DSRF_PACKET_LENGTH]
    constructor
    · intro h
      by_contra h13
      split_ifs at h
    · intro h; simp [h]

/-- For a recognised variant one run of the `while` loop keeps the index
below the packet length, empties the queue, parses only at the last index of
a packet and stores only below the packet length. -/
theorem loopWhile_within_packet (type : Nat)
    (hty : type = PROSENSE_TYPE_CO100 ∨ type = PROSENSE_TYPE_DSRF) (rx : List Nat) :
    ∀ s : ProsenseComponent, s.type_ = type → s.data_index_ ≤ packetLength type - 1 →
      (loopWhile s rx).comp.type_ = type
      ∧ (loopWhile s rx).comp.data_index_ ≤ packetLength type - 1
      ∧ (loopWhile s rx).rx = []
      ∧ (∀ e ∈ (loopWhile s rx).parsed, e.2 = packetLength type - 1)
      ∧ ∀ w ∈ (loopWhile s rx).stored, w.1 ≤ packetLength type - 1 := by
  have hL := packetLength_le type
  induction rx with
  | nil => intro s h1 h2; simp [loopWhile, h1, h2]
  | cons b rest ih =>
    intro s h1 h2
    have hlt : s.data_index_ < DATA_SIZE := by unfold DATA_SIZE; omega
    have hiff := check_byte_none_iff { s with data_ := s.data_.set s.data_index_ b }
      (by rw [← h1] at hty; exact hty) (show s.data_index_ < 256 by omega)
    rcases hc : check_byte_ { s with data_ := s.data_.set s.data_index_ b } with _ | c
    · rw [loopWhile_cons_finished s b rest hlt hc]
      have hk : s.data_index_ = packetLength type - 1 := by
        have := hiff.mp hc
        simpa [h1] using this
      refine ⟨?_, Nat.zero_le _, rfl, ?_, ?_⟩
      · show (parse_data_ _).1.type_ = type
        rw [parse_data_type]; exact h1
      · intro e he
        simp only [List.mem_singleton] at he
        rw [he]; exact hk
      · intro w hw
        simp only [List.mem_singleton] at hw
        rw [hw]; exact h2
    · cases c
      · rw [loopWhile_cons_reject s b rest hlt hc]
        obtain ⟨i1, i2, i3, i4, i5⟩ :=
          ih { s with data_ := s.data_.set s.data_index_ b, data_index_ := 0 } h1
            (Nat.zero_le _)
        refine ⟨i1, i2, i3, i4, ?_⟩
        intro w hw
        simp only [LoopResult.withStore, List.mem_cons] at hw
        rcases hw with hw | hw
        · rw [hw]; exact h2
        · exact i5 w hw
      · rw [loopWhile_cons_continue s b rest hlt hc]
        have hk : s.data_index_ ≠ packetLength type - 1 := by
          intro hk
          have hn : check_byte_ { s with data_ := s.data_.set s.data_index_ b } = none :=
            hiff.mpr (by simpa [h1] using hk)
          rw [hn] at hc
          exact Option.noConfusion hc
        obtain ⟨i1, i2, i3, i4, i5⟩ :=
          ih { s with data_ := s.data_.set s.data_index_ b,
                      data_index_ := (s.data_index_ + 1) % 256 } h1
            (show (s.data_index_ + 1) % 256 ≤ packetLength type - 1 by omega)
        refine ⟨i1, i2, i3, i4, ?_⟩
        intro w hw
        simp only [LoopResult.withStore, List.mem_cons] at hw
        rcases hw with hw | hw
        · rw [hw]; exact h2
        · exact i5 w hw

theorem loop_within_packet (type : Nat)
    (hty : type = PROSENSE_TYPE_CO100 ∨ type = PROSENSE_TYPE_DSRF) (now : Nat)
    (s : ProsenseComponent) (rx : List Nat) (h1 : s.type_ = type)
    (h2 : s.data_index_ ≤ packetLength type - 1) :
    (loop now s rx).comp.type_ = type
      ∧ (loop now s rx).comp.data_index_ ≤ packetLength type - 1
      ∧ (loop now s rx).rx = []
      ∧ (∀ e ∈ (loop now s rx).parsed, e.2 = packetLength type - 1)
      ∧ ∀ w ∈ (loop now s rx).stored, w.1 ≤ packetLength type - 1 := by
  have ht : (if sub32 now s.last_transmission_ ≥ 500 then { s with data_index_ := 0 }
      else s).type_ = type := by split <;> exact h1
  have hi : (if sub32 now s.last_transmission_ ≥ 500 then { s with data_index_ := 0 }
      else s).data_index_ ≤ packetLength type - 1 := by
    split
    · exact Nat.zero_le _
    · exact h2
  rw [loop_unfold]
  cases rx with
  | nil => exact ⟨ht, hi, rfl, by simp, by simp⟩
  | cons b rest => exact loopWhile_within_packet type hty (b :: rest) _ ht hi

theorem runPolls_within_packet (type : Nat)
    (hty : type = PROSENSE_TYPE_CO100 ∨ type = PROSENSE_TYPE_DSRF) (polls : List Poll) :
    ∀ t : Trace, t.comp.type_ = type → t.comp.data_index_ ≤ packetLength type - 1 →
      t.rx = [] → (∀ e ∈ t.parsed, e.2 = packetLength type - 1) →
      (runPolls t polls).comp.type_ = type
      ∧ (runPolls t polls).comp.data_index_ ≤ packetLength type - 1
      ∧ (runPolls t polls).rx = []
      ∧ ∀ e ∈ (runPolls t polls).parsed, e.2 = packetLength type - 1 := by
  induction polls with
  | nil => intro t h1 h2 h3 h4; exact ⟨h1, h2, h3, h4⟩
  | cons p polls ih =>
    intro t h1 h2 h3 h4
    obtain ⟨n, bs⟩ := p
    simp only [runPolls]
    obtain ⟨l1, l2, l3, l4, _⟩ := loop_within_packet type hty n t.comp (t.rx ++ bs) h1 h2
    apply ih _ l1 l2 l3
    intro e he
    simp only [List.mem_append] at he
    rcases he with he | he
    · exact h4 e he
    · exact l4 e he

/-- C19. For a recognised variant with packet length `L`, in every state
reached from index 0 by calls of `loop` the index is at most `L - 1`, hence
below the capacity 64; every call of `loop` consumes its whole input (the
overflow branch, the only one that returns with bytes left in the queue, is
never taken) and stores only at indices up to `L - 1`; and every invocation of
`parse_data_` is at index `L - 1`, where its length guard does not fire. -/
theorem position_within_packet (s : ProsenseComponent) (polls : List Poll)
    (hty : s.type_ = PROSENSE_TYPE_CO100 ∨ s.type_ = PROSENSE_TYPE_DSRF)
    (hpos : s.data_index_ = 0) :
    (runPolls (Trace.start s) polls).comp.data_index_ ≤ packetLength s.type_ - 1
    ∧ (runPolls (Trace.start s) polls).comp.data_index_ < DATA_SIZE
    ∧ (runPolls (Trace.start s) polls).rx = []
    ∧ (∀ e ∈ (runPolls (Trace.start s) polls).parsed, e.2 = packetLength s.type_ - 1)
    ∧ ∀ (now : Nat) (rx : List Nat),
        (loop now (runPolls (Trace.start s) polls).comp rx).rx = []
        ∧ (∀ e ∈ (loop now (runPolls (Trace.start s) polls).comp rx).parsed,
            e.2 = packetLength s.type_ - 1)
        ∧ ∀ w ∈ (loop now (runPolls (Trace.start s) polls).comp rx).stored,
            w.1 ≤ packetLength s.type_ - 1 := by
  have hL := packetLength_le s.type_
  obtain ⟨r1, r2, r3, r4⟩ := runPolls_within_packet s.type_ hty polls (Trace.start s) rfl
    (show s.data_index_ ≤ packetLength s.type_ - 1 by rw [hpos]; exact Nat.zero_le _) rfl
    (by intro e he; simp [Trace.start] at he)
  refine ⟨r2, by unfold DATA_SIZE; omega, r3, r4, fun now rx => ?_⟩
  obtain ⟨_, _, l3, l4, l5⟩ := loop_within_packet s.type_ hty now _ rx r1 r2
  exact ⟨l3, l4, l5⟩

theorem check_byte_no_start (s : ProsenseComponent)
    (hty : s.type_ = PROSENSE_TYPE_CO100 ∨ s.type_ = PROSENSE_TYPE_DSRF)
    (hidx : s.data_index_ = 0) (hb : byteAt s.data_ 0 ≠ 0xFF) :
    check_byte_ s = some false := by
  rcases hty with hty | hty
  · rw [check_byte_co100 s hty (by omega)]
    simp [hidx, hb]
  · rw [check_byte_dsrf s hty (by omega)]
    simp [hidx, hb]

theorem loopWhile_no_start (rx : List Nat) :
    ∀ s : ProsenseComponent,
      (s.type_ = PROSENSE_TYPE_CO100 ∨ s.type_ = PROSENSE_TYPE_DSRF) →
      s.data_.length = DATA_SIZE → s.data_index_ = 0 → 0xFF ∉ rx →
      (loopWhile s rx).rx = [] ∧ (loopWhile s rx).parsed = []
      ∧ (loopWhile s rx).published = [] ∧ (loopWhile s rx).comp.data_index_ = 0
      ∧ (loopWhile s rx).stored = rx.map (fun b => (0, b))
      ∧ (loopWhile s rx).dropped = [] := by
  induction rx with
  | nil => intro s _ _ h _; simp [loopWhile, h]
  | cons b rest ih =>
    intro s hty hlen hidx hff
    have hb : b ≠ 0xFF := fun h => hff (by simp [h])
    have hrest : 0xFF ∉ rest := fun h => hff (List.mem_cons_of_mem _ h)
    have hlt : s.data_index_ < DATA_SIZE := by rw [hidx]; decide
    have h0 : 0 < s.data_.length := by rw [hlen]; decide
    have hc : check_byte_ { s with data_ := s.data_.set s.data_index_ b } = some false := by
      refine check_byte_no_start { s with data_ := s.data_.set s.data_index_ b } hty hidx ?_
      show byteAt (s.data_.set s.data_index_ b) 0 ≠ 0xFF
      rw [hidx, byteAt_set_self _ _ _ h0]
      exact hb
    rw [loopWhile_cons_reject s b rest hlt hc]
    obtain ⟨i1, i2, i3, i4, i5, i6⟩ :=
      ih { s with data_ := s.data_.set s.data_index_ b, data_index_ := 0 } hty
        (by simpa using hlen) rfl hrest
    refine ⟨i1, i2, i3, i4, ?_, i6⟩
    show (s.data_index_, b) :: (loopWhile _ rest).stored = _
    rw [i5, hidx]
    rfl

/-- C13. Flood of non-matching bytes: for a recognised variant and an input
of any length without a `0xFF` byte, `loop` started at index 0 consumes every
byte (each is stored at index 0, none is left in the queue or dropped),
never invokes `parse_data_`, publishes nothing and ends at index 0. -/
theorem flood_without_start_byte (s : ProsenseComponent) (now : Nat) (rx : List Nat)
    (hty : s.type_ = PROSENSE_TYPE_CO100 ∨ s.type_ = PROSENSE_TYPE_DSRF)
    (hlen : s.data_.length = DATA_SIZE) (hpos : s.data_index_ = 0) (hff : 0xFF ∉ rx) :
    (loop now s rx).rx = [] ∧ (loop now s rx).dropped = []
    ∧ (loop now s rx).stored = rx.map (fun b => (0, b))
    ∧ (loop now s rx).parsed = [] ∧ (loop now s rx).published = []
    ∧ (loop now s rx).comp.data_index_ = 0 := by
  rw [loop_no_reset now s rx (Or.inl hpos)]
  cases rx with
  | nil => exact ⟨rfl, rfl, rfl, rfl, rfl, hpos⟩
  | cons b rest =>
    obtain ⟨i1, i2, i3, i4, i5, i6⟩ :=
      loopWhile_no_start (b :: rest) { s with last_transmission_ := now } hty hlen hpos hff
    exact ⟨i1, i6, i5, i2, i3, i4⟩

theorem getLast?_cons_of_some {α : Type} (x y : α) (l : List α) (h : l.getLast? = some y) :
    (x :: l).getLast? = some y := by
  cases l with
  | nil => simp at h
  | cons a t => rw [List.getLast?_cons_cons]; exact h

/-- One run of the `while` loop parses at most once; when it parses, the index
ends at 0, the queue is empty and the last byte stored is the one at the
parsed index. The input splits into the bytes stored, then the bytes dropped,
then the bytes left in the queue. -/
theorem loopWhile_parse_once (rx : List Nat) :
    ∀ s : ProsenseComponent,
      (loopWhile s rx).parsed.length ≤ 1
      ∧ rx = (loopWhile s rx).stored.map Prod.snd ++ (loopWhile s rx).dropped
          ++ (loopWhile s rx).rx
      ∧ ((loopWhile s rx).parsed ≠ [] →
          (loopWhile s rx).comp.data_index_ = 0 ∧ (loopWhile s rx).rx = []
          ∧ ∃ buf idx b, (loopWhile s rx).parsed = [(buf, idx)]
              ∧ (loopWhile s rx).stored.getLast? = some (idx, b))
      ∧ ((loopWhile s rx).parsed = [] → (loopWhile s rx).dropped = []) := by
  induction rx with
  | nil => intro s; simp [loopWhile]
  | cons b rest ih =>
    intro s
    by_cases hov : DATA_SIZE ≤ s.data_index_
    · rw [loopWhile_cons_overflow s b rest hov]
      simp
    · have hlt : s.data_index_ < DATA_SIZE := by omega
      rcases hc : check_byte_ { s with data_ := s.data_.set s.data_index_ b } with _ | c
      · rw [loopWhile_cons_finished s b rest hlt hc]
        refine ⟨by simp, by simp, fun _ => ⟨rfl, rfl, _, _, b, rfl, rfl⟩, by simp⟩
      · have key : ∀ s' : ProsenseComponent,
            ((loopWhile s' rest).withStore s.data_index_ b).parsed.length ≤ 1
            ∧ b :: rest = ((loopWhile s' rest).withStore s.data_index_ b).stored.map Prod.snd
                ++ ((loopWhile s' rest).withStore s.data_index_ b).dropped
                ++ ((loopWhile s' rest).withStore s.data_index_ b).rx
            ∧ (((loopWhile s' rest).withStore s.data_index_ b).parsed ≠ [] →
                ((loopWhile s' rest).withStore s.data_index_ b).comp.data_index_ = 0
                ∧ ((loopWhile s' rest).withStore s.data_index_ b).rx = []
                ∧ ∃ buf idx c, ((loopWhile s' rest).withStore s.data_index_ b).parsed
                      = [(buf, idx)]
                    ∧ ((loopWhile s' rest).withStore s.data_index_ b).stored.getLast?
                      = some (idx, c))
            ∧ (((loopWhile s' rest).withStore s.data_index_ b).parsed = [] →
                ((loopWhile s' rest).withStore s.data_index_ b).dropped = []) := by
          intro s'
          obtain ⟨i1, i2, i3, i4⟩ := ih s'
          refine ⟨i1, ?_, fun h => ?_, i4⟩
          · show b :: rest = (b :: (loopWhile s' rest).stored.map Prod.snd)
              ++ (loopWhile s' rest).dropped ++ (loopWhile s' rest).rx
            rw [List.cons_append, List.cons_append, ← i2]
          · obtain ⟨j1, j2, buf, idx, c, j3, j4⟩ := i3 h
            exact ⟨j1, j2, buf, idx, c, j3, getLast?_cons_of_some _ _ _ j4⟩
        cases c
        · rw [loopWhile_cons_reject s b rest hlt hc]; exact key _
        · rw [loopWhile_cons_continue s b rest hlt hc]; exact key _

/-- C14. Frame completion drains the input: one call of `loop` invokes
`parse_data_` at most once; the input is the bytes stored, followed by the
bytes dropped, followed by the bytes left in the queue; when `parse_data_` is
invoked the index ends at 0, the queue is empty and the last byte stored is
the completing byte, so that every later byte was dropped; without an
invocation nothing is dropped. Of two valid CO100 frames back to back only the
first is decoded and the second is dropped whole. -/
theorem loop_parses_once_and_drains (now : Nat) (s : ProsenseComponent) (rx : List Nat) :
    (loop now s rx).parsed.length ≤ 1
    ∧ rx = (loop now s rx).stored.map Prod.snd ++ (loop now s rx).dropped ++ (loop now s rx).rx
    ∧ ((loop now s rx).parsed ≠ [] →
        (loop now s rx).comp.data_index_ = 0 ∧ (loop now s rx).rx = []
        ∧ ∃ buf idx b, (loop now s rx).parsed = [(buf, idx)]
            ∧ (loop now s rx).stored.getLast? = some (idx, b))
    ∧ ((loop now s rx).parsed = [] → (loop now s rx).dropped = [])
    ∧ (loop 1 (initial PROSENSE_TYPE_CO100) co100_twice).parsed
        = [(co100_valid ++ List.replicate 56 0, 7)]
    ∧ (loop 1 (initial PROSENSE_TYPE_CO100) co100_twice).stored.map Prod.snd = co100_valid
    ∧ (loop 1 (initial PROSENSE_TYPE_CO100) co100_twice).dropped = co100_valid := by
  have h : (loop now s rx).parsed.length ≤ 1
      ∧ rx = (loop now s rx).stored.map Prod.snd ++ (loop now s rx).dropped
          ++ (loop now s rx).rx
      ∧ ((loop now s rx).parsed ≠ [] →
          (loop now s rx).comp.data_index_ = 0 ∧ (loop now s rx).rx = []
          ∧ ∃ buf idx b, (loop now s rx).parsed = [(buf, idx)]
              ∧ (loop now s rx).stored.getLast? = some (idx, b))
      ∧ ((loop now s rx).parsed = [] → (loop now s rx).dropped = []) := by
    rw [loop_unfold]
    cases rx with
    | nil => simp
    | cons b rest => exact loopWhile_parse_once (b :: rest) _
  obtain ⟨h1, h2, h3, h4⟩ := h
  exact ⟨h1, h2, h3, h4, by decide, by decide, by decide⟩

theorem loopWhile_first_store (s : ProsenseComponent) (b : Nat) (rest : List Nat)
    (hidx : s.data_index_ < DATA_SIZE) :
    (loopWhile s (b :: rest)).stored.head? = some (s.data_index_, b) := by
  rcases hc : check_byte_ { s with data_ := s.data_.set s.data_index_ b } with _ | c
  · rw [loopWhile_cons_finished s b rest hidx hc]; rfl
  · cases c
    · rw [loopWhile_cons_reject s b rest hidx hc]; rfl
    · rw [loopWhile_cons_continue s b rest hidx hc]; rfl

/-- C11. Silence-timeout resync: when `now - last_transmission_ >= 500` (in
`uint32_t` arithmetic) `loop` resets the index to 0 before it looks at the
input: with no input the index is 0 afterwards, and with input the call is the
`while` loop run from index 0, whose first store puts the first byte at
`data_[0]`. When `now - last_transmission_ < 500` the index is not reset: with
no input it is unchanged, and with input the `while` loop runs from the
current index, where (below the capacity) the first byte is stored. -/
theorem loop_silence_timeout (now : Nat) (s : ProsenseComponent) :
    (sub32 now s.last_transmission_ ≥ 500 →
      (loop now s []).comp.data_index_ = 0
      ∧ ∀ (b : Nat) (rest : List Nat),
          loop now s (b :: rest)
            = loopWhile { s with data_index_ := 0, last_transmission_ := now } (b :: rest)
          ∧ (loop now s (b :: rest)).stored.head? = some (0, b))
    ∧ (sub32 now s.last_transmission_ < 500 →
      (loop now s []).comp.data_index_ = s.data_index_
      ∧ ∀ (b : Nat) (rest : List Nat),
          loop now s (b :: rest) = loopWhile { s with last_transmission_ := now } (b :: rest)
          ∧ (s.data_index_ < DATA_SIZE →
              (loop now s (b :: rest)).stored.head? = some (s.data_index_, b))) := by
  refine ⟨fun h => ?_, fun h => ?_⟩
  · have hs : (if sub32 now s.last_transmission_ ≥ 500 then { s with data_index_ := 0 } else s)
        = { s with data_index_ := 0 } := if_pos h
    refine ⟨?_, fun b rest => ?_⟩
    · rw [loop_unfold]; simp only [hs]
    · have e : loop now s (b :: rest)
          = loopWhile { s with data_index_ := 0, last_transmission_ := now } (b :: rest) := by
        rw [loop_unfold]; simp only [hs]
      refine ⟨e, ?_⟩
      rw [e]
      exact loopWhile_first_store _ b rest (show 0 < DATA_SIZE by decide)
  · have hs : (if sub32 now s.last_transmission_ ≥ 500 then { s with data_index_ := 0 } else s)
        = s := if_neg (by omega)
    refine ⟨?_, fun b rest => ?_⟩
    · rw [loop_unfold]; simp only [hs]
    · have e : loop now s (b :: rest)
          = loopWhile { s with last_transmission_ := now } (b :: rest) := by
        rw [loop_unfold]; simp only [hs]
      refine ⟨e, fun hlt => ?_⟩
      rw [e]
      exact loopWhile_first_store _ b rest hlt

/-- C16. Overflow guard: at index 64 with input available and
`now - last_transmission_ < 500`, `loop` sets `last_transmission_` to `now`,
resets the index to 0 and returns with the whole input still in the queue,
the buffer unchanged, nothing stored, dropped, parsed or published. -/
theorem loop_overflow_guard (now : Nat) (s : ProsenseComponent) (b : Nat) (rest : List Nat)
    (hpos : s.data_index_ = DATA_SIZE) (htime : sub32 now s.last_transmission_ < 500) :
    loop now s (b :: rest)
      = ⟨{ s with last_transmission_ := now, data_index_ := 0 }, b :: rest, [], [], [], []⟩ := by
  rw [loop_no_reset now s (b :: rest) (Or.inr htime)]
  simp only
  rw [loopWhile_cons_overflow _ b rest (by show DATA_SIZE ≤ s.data_index_; omega)]

/-- C17. Poll with no input: `loop` leaves `last_transmission_`, the buffer
and the warning bit unchanged, publishes, parses, stores and drops nothing,
and changes the component only by the silence-timeout reset of the index; when
`now - last_transmission_ < 500` the component is unchanged. -/
theorem loop_no_input (now : Nat) (s : ProsenseComponent) :
    (loop now s []).comp.last_transmission_ = s.last_transmission_
    ∧ (loop now s []).comp.data_ = s.data_
    ∧ (loop now s []).comp.status_warning = s.status_warning
    ∧ (loop now s []).published = [] ∧ (loop now s []).parsed = []
    ∧ (loop now s []).stored = [] ∧ (loop now s []).dropped = []
    ∧ (loop now s []).comp
        = (if sub32 now s.last_transmission_ ≥ 500 then { s with data_index_ := 0 } else s)
    ∧ (sub32 now s.last_transmission_ < 500 → (loop now s []).comp = s) := by
  have hc : (loop now s []).comp
      = (if sub32 now s.last_transmission_ ≥ 500 then { s with data_index_ := 0 } else s) := rfl
  refine ⟨?_, ?_, ?_, rfl, rfl, rfl, rfl, hc, fun h => ?_⟩
  · rw [hc]; split <;> rfl
  · rw [hc]; split <;> rfl
  · rw [hc]; split <;> rfl
  · rw [hc]; exact if_neg (by omega)

/-- C20. A rejected byte is not re-examined as a start marker: for CO100 at
index 0, the byte `0xFF` followed by the valid frame
`[0xFF,0x19,0x02,0x02,0x04,0xD2,0x0E,0x00]` makes `loop` consume all nine
bytes, invoke `parse_data_` zero times, publish nothing and end at index 0,
although the valid frame alone is decoded. -/
theorem resync_loses_frame :
    (loop 1 (initial PROSENSE_TYPE_CO100) (0xFF :: co100_valid)).parsed = []
    ∧ (loop 1 (initial PROSENSE_TYPE_CO100) (0xFF :: co100_valid)).published = []
    ∧ (loop 1 (initial PROSENSE_TYPE_CO100) (0xFF :: co100_valid)).comp.data_index_ = 0
    ∧ (loop 1 (initial PROSENSE_TYPE_CO100) (0xFF :: co100_valid)).rx = []
    ∧ headerValid PROSENSE_TYPE_CO100 co100_valid
    ∧ checksumValid PROSENSE_TYPE_CO100 co100_valid
    ∧ (loop 1 (initial PROSENSE_TYPE_CO100) co100_valid).parsed
        = [(co100_valid ++ List.replicate 56 0, 7)] := by
  refine ⟨by decide, by decide, by decide, by decide, by decide, by decide, by decide⟩

theorem measurement_congr (s s' : ProsenseComponent) (k : Sink) (h : s'.data_ = s.data_) :
    measurement s' k = measurement s k := by
  cases k <;> simp [measurement, co_value, temperature, humidity, get_16_bit_uint_, h]

theorem publishedTo_parse_data (s : ProsenseComponent) (k : Sink)
    (hty : s.type_ = PROSENSE_TYPE_CO100 ∨ s.type_ = PROSENSE_TYPE_DSRF)
    (hidx : s.data_index_ = packetLength s.type_ - 1) :
    publishedTo k (parse_data_ s).2
      = if (configured s k && belongs s.type_ k) = true then [⟨k, measurement s k⟩] else [] := by
  have hne : ¬ (PROSENSE_TYPE_CO100 = PROSENSE_TYPE_DSRF) := by decide
  have hne2 : ¬ (PROSENSE_TYPE_DSRF = PROSENSE_TYPE_CO100) := by decide
  rcases hty with hty | hty
  · rw [parse_data_co100_published s hty (by rw [hidx, hty]; rfl), publishedTo_publish_if, hty]
    cases k <;> cases hc : s.co_sensor_ <;>
      simp [configured, belongs, measurement, publish_if, hc, hne]
  · rw [parse_data_dsrf_published s hty (by rw [hidx, hty]; rfl), hty]
    simp only [publishedTo_append, publishedTo_publish_if]
    cases k
    · simp [configured, belongs, hne2]
    · cases hc : s.temperature_sensor_ <;>
        simp [configured, belongs, measurement, publish_if, hc]
    · cases hc : s.humidity_sensor_ <;>
        simp [configured, belongs, measurement, publish_if, hc]
    · cases hc : s.tvoc_sensor_ <;>
        simp [configured, belongs, measurement, publish_if, hc]
    · cases hc : s.formaldehyde_sensor_ <;>
        simp [configured, belongs, measurement, publish_if, hc]

theorem mem_publishedTo (k : Sink) (l : List Publish) (p : Publish) :
    p ∈ publishedTo k l ↔ p ∈ l ∧ p.sink = k := by
  simp [publishedTo]

theorem dsrf_valid_published :
    (parse_data_ (withFrame PROSENSE_TYPE_DSRF dsrf_valid)).2
      = [⟨Sink.formaldehyde, 1⟩, ⟨Sink.tvoc, 3⟩, ⟨Sink.temperature, 51 / 2⟩,
          ⟨Sink.humidity, 4131 / 100⟩] := by
  rw [parse_data_dsrf_published _ rfl rfl]
  have g2 : get_16_bit_uint_ (withFrame PROSENSE_TYPE_DSRF dsrf_valid) 2 = 1 := by
    show ((0 <<< 8) ||| 1) % 65536 = 1
    decide
  have g6 : get_16_bit_uint_ (withFrame PROSENSE_TYPE_DSRF dsrf_valid) 6 = 3 := by
    show ((0 <<< 8) ||| 3) % 65536 = 3
    decide
  have b8 : byteAt (withFrame PROSENSE_TYPE_DSRF dsrf_valid).data_ 8 = 0 := rfl
  have b9 : byteAt (withFrame PROSENSE_TYPE_DSRF dsrf_valid).data_ 9 = 25 := rfl
  have b10 : byteAt (withFrame PROSENSE_TYPE_DSRF dsrf_valid).data_ 10 = 50 := rfl
  have b11 : byteAt (withFrame PROSENSE_TYPE_DSRF dsrf_valid).data_ 11 = 40 := rfl
  have b12 : byteAt (withFrame PROSENSE_TYPE_DSRF dsrf_valid).data_ 12 = 131 := rfl
  have c1 : (withFrame PROSENSE_TYPE_DSRF dsrf_valid).formaldehyde_sensor_ = true := rfl
  have c2 : (withFrame PROSENSE_TYPE_DSRF dsrf_valid).tvoc_sensor_ = true := rfl
  have c3 : (withFrame PROSENSE_TYPE_DSRF dsrf_valid).temperature_sensor_ = true := rfl
  have c4 : (withFrame PROSENSE_TYPE_DSRF dsrf_valid).humidity_sensor_ = true := rfl
  simp only [g2, g6, c1, c2, c3, c4, publish_if, temperature, humidity, b8, b9, b10, b11, b12,
    DSRF_TEMP_POSITIVE]
  norm_num

theorem co100_valid_published :
    (parse_data_ (withFrame PROSENSE_TYPE_CO100 co100_valid)).2 = [⟨Sink.co, 617 / 50⟩] := by
  rw [parse_data_co100_published _ rfl rfl]
  have g4 : get_16_bit_uint_ (withFrame PROSENSE_TYPE_CO100 co100_valid) 4 = 1234 := by
    show ((4 <<< 8) ||| 210) % 65536 = 1234
    decide
  have b3 : byteAt (withFrame PROSENSE_TYPE_CO100 co100_valid).data_ 3 = 2 := rfl
  have c1 : (withFrame PROSENSE_TYPE_CO100 co100_valid).co_sensor_ = true := rfl
  simp only [co_value, g4, b3, c1, publish_if, powf10_finite 2 (by decide), divf]
  norm_num

/-- C15. Optional sinks: at a successful decode (recognised variant, index
`L - 1`) a value is published to a sink iff its sensor is set and its
measurement belongs to the variant (CO for CO100; formaldehyde, TVOC,
temperature and humidity for DSRF); a sink that is set receives exactly its
own measurement, which is the same for any other setting of the sensors; every
published value is the measurement of the sink it goes to, so the VOC and
full-scale fields go to no sink (on the sample frames no published value
equals them). -/
theorem parse_data_optional_sinks (s s' : ProsenseComponent) (k : Sink)
    (hty : s.type_ = PROSENSE_TYPE_CO100 ∨ s.type_ = PROSENSE_TYPE_DSRF)
    (hidx : s.data_index_ = packetLength s.type_ - 1) :
    ((∃ p ∈ (parse_data_ s).2, p.sink = k) ↔ (configured s k = true ∧ belongs s.type_ k = true))
    ∧ (configured s k = true → belongs s.type_ k = true →
        publishedTo k (parse_data_ s).2 = [⟨k, measurement s k⟩])
    ∧ (s'.data_ = s.data_ → s'.type_ = s.type_ → s'.data_index_ = s.data_index_ →
        configured s k = true → configured s' k = true →
        publishedTo k (parse_data_ s').2 = publishedTo k (parse_data_ s).2)
    ∧ (∀ p ∈ (parse_data_ s).2, p.value = measurement s p.sink)
    ∧ (∀ p ∈ (parse_data_ (withFrame PROSENSE_TYPE_DSRF dsrf_valid)).2,
        p.value ≠ (voc (withFrame PROSENSE_TYPE_DSRF dsrf_valid) : ℚ))
    ∧ (∀ p ∈ (parse_data_ (withFrame PROSENSE_TYPE_CO100 co100_valid)).2,
        p.value ≠ (full_scale (withFrame PROSENSE_TYPE_CO100 co100_valid) : ℚ)) := by
  have key := publishedTo_parse_data s k hty hidx
  refine ⟨?_, ?_, ?_, ?_, ?_, ?_⟩
  · constructor
    · rintro ⟨p, hp, hk⟩
      have hm : p ∈ publishedTo k (parse_data_ s).2 := (mem_publishedTo k _ p).mpr ⟨hp, hk⟩
      rw [key] at hm
      by_contra hcon
      have : ¬ ((configured s k && belongs s.type_ k) = true) := by
        simpa [Bool.and_eq_true] using hcon
      rw [if_neg this] at hm
      simp at hm
    · rintro ⟨h1, h2⟩
      have hm : (⟨k, measurement s k⟩ : Publish) ∈ publishedTo k (parse_data_ s).2 := by
        rw [key, if_pos (by simp [h1, h2])]
        simp
      exact ⟨_, ((mem_publishedTo k _ _).mp hm).1, rfl⟩
  · intro h1 h2
    rw [key, if_pos (by simp [h1, h2])]
  · intro hd ht hi h1 h2
    have hty' : s'.type_ = PROSENSE_TYPE_CO100 ∨ s'.type_ = PROSENSE_TYPE_DSRF := by
      rw [ht]; exact hty
    rw [key, publishedTo_parse_data s' k hty' (by rw [hi, ht, hidx]), ht, h1, h2,
      measurement_congr s s' k hd]
  · intro p hp
    have hm : p ∈ publishedTo p.sink (parse_data_ s).2 :=
      (mem_publishedTo p.sink _ p).mpr ⟨hp, rfl⟩
    rw [publishedTo_parse_data s p.sink hty hidx] at hm
    split at hm
    · simp only [List.mem_singleton] at hm
      rw [hm]
    · simp at hm
  · have hv : voc (withFrame PROSENSE_TYPE_DSRF dsrf_valid) = 2 := by
      show ((0 <<< 8) ||| 2) % 65536 = 2
      decide
    intro p hp
    rw [dsrf_valid_published] at hp
    rw [hv]
    simp only [List.mem_cons, List.mem_singleton, List.not_mem_nil, or_false] at hp
    rcases hp with h | h | h | h <;> rw [h] <;> norm_num
  · have hv : full_scale (withFrame PROSENSE_TYPE_CO100 co100_valid) = 3584 := by
      show ((14 <<< 8) ||| 0) % 65536 = 3584
      decide
    intro p hp
    rw [co100_valid_published] at hp
    rw [hv]
    simp only [List.mem_singleton] at hp
    rw [hp]; norm_num

theorem loop_silence_timeout_witness :
    (sub32 1500 midFrame.last_transmission_ ≥ 500 ∧ (loop 1500 midFrame []).comp.data_index_ = 0)
      ∧ (sub32 1499 midFrame.last_transmission_ < 500
        ∧ (loop 1499 midFrame []).comp.data_index_ = midFrame.data_index_) :=
  ⟨⟨by decide, ((loop_silence_timeout 1500 midFrame).1 (by decide)).1⟩,
    ⟨by decide, ((loop_silence_timeout 1499 midFrame).2 (by decide)).1⟩⟩

theorem position_within_capacity_witness :
    (initial 7).data_index_ = 0
      ∧ (runPolls (Trace.start (initial 7)) [(1, List.replicate 70 0x41)]).comp.data_index_
          ≤ DATA_SIZE
      ∧ ∀ (now : Nat) (rx : List Nat),
          ∀ w ∈ (loop now
              (runPolls (Trace.start (initial 7)) [(1, List.replicate 70 0x41)]).comp rx).stored,
            w.1 < DATA_SIZE :=
  ⟨rfl, position_within_capacity (initial 7) [(1, List.replicate 70 0x41)] rfl⟩

theorem flood_without_start_byte_witness :
    ((initial PROSENSE_TYPE_CO100).type_ = PROSENSE_TYPE_CO100
        ∨ (initial PROSENSE_TYPE_CO100).type_ = PROSENSE_TYPE_DSRF)
      ∧ (initial PROSENSE_TYPE_CO100).data_.length = DATA_SIZE
      ∧ (initial PROSENSE_TYPE_CO100).data_index_ = 0
      ∧ 0xFF ∉ List.replicate 70 0x41
      ∧ (loop 1 (initial PROSENSE_TYPE_CO100) (List.replicate 70 0x41)).rx = []
      ∧ (loop 1 (initial PROSENSE_TYPE_CO100) (List.replicate 70 0x41)).dropped = []
      ∧ (loop 1 (initial PROSENSE_TYPE_CO100) (List.replicate 70 0x41)).stored
          = (List.replicate 70 0x41).map (fun b => (0, b))
      ∧ (loop 1 (initial PROSENSE_TYPE_CO100) (List.replicate 70 0x41)).parsed = []
      ∧ (loop 1 (initial PROSENSE_TYPE_CO100) (List.replicate 70 0x41)).published = []
      ∧ (loop 1 (initial PROSENSE_TYPE_CO100) (List.replicate 70 0x41)).comp.data_index_ = 0 :=
  ⟨Or.inl rfl, rfl, rfl, by decide,
    flood_without_start_byte (initial PROSENSE_TYPE_CO100) 1 (List.replicate 70 0x41)
      (Or.inl rfl) rfl rfl (by decide)⟩

theorem parse_data_optional_sinks_witness :
    (twoSensors.type_ = PROSENSE_TYPE_CO100 ∨ twoSensors.type_ = PROSENSE_TYPE_DSRF)
      ∧ twoSensors.data_index_ = packetLength twoSensors.type_ - 1
      ∧ ((∃ p ∈ (parse_data_ twoSensors).2, p.sink = Sink.temperature)
          ↔ (configured twoSensors Sink.temperature = true
              ∧ belongs twoSensors.type_ Sink.temperature = true))
      ∧ configured twoSensors Sink.temperature = true
      ∧ belongs twoSensors.type_ Sink.temperature = true
      ∧ publishedTo Sink.temperature (parse_data_ twoSensors).2
          = [⟨Sink.temperature, measurement twoSensors Sink.temperature⟩] :=
  ⟨Or.inr rfl, rfl,
    (parse_data_optional_sinks twoSensors (withFrame PROSENSE_TYPE_DSRF dsrf_valid)
      Sink.temperature (Or.inr rfl) rfl).1,
    rfl, rfl,
    (parse_data_optional_sinks twoSensors (withFrame PROSENSE_TYPE_DSRF dsrf_valid)
      Sink.temperature (Or.inr rfl) rfl).2.1 rfl rfl⟩

theorem loop_overflow_guard_witness :
    fullBuffer.data_index_ = DATA_SIZE ∧ sub32 1100 fullBuffer.last_transmission_ < 500
      ∧ loop 1100 fullBuffer (0xFF :: [0x19])
          = ⟨{ fullBuffer with last_transmission_ := 1100, data_index_ := 0 }, 0xFF :: [0x19],
              [], [], [], []⟩ :=
  ⟨rfl, by decide, loop_overflow_guard 1100 fullBuffer 0xFF [0x19] rfl (by decide)⟩

theorem unknown_type_never_parses_witness :
    (initial 7).type_ ≠ PROSENSE_TYPE_CO100 ∧ (initial 7).type_ ≠ PROSENSE_TYPE_DSRF
      ∧ check_byte_ (initial 7) = Continue
      ∧ ∀ (now : Nat) (rx : List Nat),
          (loop now (initial 7) rx).parsed = [] ∧ (loop now (initial 7) rx).published = [] :=
  ⟨by decide, by decide, unknown_type_never_parses (initial 7) (by decide) (by decide)⟩

theorem position_within_packet_witness :
    ((initial PROSENSE_TYPE_CO100).type_ = PROSENSE_TYPE_CO100
        ∨ (initial PROSENSE_TYPE_CO100).type_ = PROSENSE_TYPE_DSRF)
      ∧ (initial PROSENSE_TYPE_CO100).data_index_ = 0
      ∧ (runPolls (Trace.start (initial PROSENSE_TYPE_CO100))
            [(1, co100_valid ++ [0xFF, 0x19])]).comp.data_index_
          ≤ packetLength (initial PROSENSE_TYPE_CO100).type_ - 1 :=
  ⟨Or.inl rfl, rfl,
    (position_within_packet (initial PROSENSE_TYPE_CO100) [(1, co100_valid ++ [0xFF, 0x19])]
      (Or.inl rfl) rfl).1⟩

end prosense
end esphome
